import Mathlib

/-!
Shallow embedding of the booking-data extraction and record-matching core of
`invoice_processor_final.py` (Invoice-Automation-Hub), together with theorems
settling the specification claims about it.

Conventions of the embedding:
* Python `str` values are Lean `String`s; character-level work is done on
  `List Char`.  ASCII is assumed for case folding and the digit/word-character
  classes (the repository's data is ASCII).
* Python truthiness of a string is emptiness of its character list.
* `pandas` cells are modelled by `Cell` (`na` = NaN, `val s` = a string cell).
* External collaborators (IMAP message objects, BeautifulSoup, the LLM call)
  are modelled by explicit data: a parsed HTML document carries the table
  structure BeautifulSoup would produce, the oracle is an `Except`-valued
  response, mail parts are a list of decoded payloads.
-/

namespace Invoice

/-- Characters Python's `str.strip()` / regex `\s` treat as whitespace
(ASCII whitespace plus NBSP, the only ones occurring in this code base). -/
def pyIsSpace (c : Char) : Bool :=
  c = ' ' || c = '\t' || c = '\n' || c = '\r' ||
  c = Char.ofNat 11 || c = Char.ofNat 12 || c = Char.ofNat 160

/-- Drop matching characters from the end of a list. -/
def rdropWhile (p : Char → Bool) (l : List Char) : List Char :=
  (l.reverse.dropWhile p).reverse

/-- Python `str.strip()` on a character list. -/
def pyStripL (l : List Char) : List Char :=
  rdropWhile pyIsSpace (l.dropWhile pyIsSpace)

/-- Python `str.strip()`. -/
def pyStrip (s : String) : String :=
  ⟨pyStripL s.data⟩

/-- Python `str.strip(chars)`: drop characters of the class from both ends. -/
def pyStripCharsL (p : Char → Bool) (l : List Char) : List Char :=
  rdropWhile p (l.dropWhile p)

/-- Python `str.lower()` (ASCII). -/
def lowerS (s : String) : String :=
  ⟨s.data.map Char.toLower⟩

/-- Substring test: does `hay` contain `needle` as a contiguous substring
(Python `needle in hay`)? -/
def substrL : List Char → List Char → Bool
  | _, [] => false
  | needle, c :: rest =>
    (needle.isPrefixOf (c :: rest)) || substrL needle rest

/-- `needle in hay` for strings; the empty needle is a substring of anything,
as in Python. -/
def substrS (needle hay : String) : Bool :=
  needle.data.isEmpty || substrL needle.data hay.data

/-- Python `str.split()` (split on whitespace runs, dropping empties):
accumulator-based scanner. -/
def splitWSAux : List Char → List Char → List String
  | [], acc => if acc.isEmpty then [] else [⟨acc.reverse⟩]
  | c :: cs, acc =>
    if pyIsSpace c then
      if acc.isEmpty then splitWSAux cs [] else ⟨acc.reverse⟩ :: splitWSAux cs []
    else splitWSAux cs (c :: acc)

/-- Python `str.split()`. -/
def pySplit (s : String) : List String :=
  splitWSAux s.data []

/-- The quote characters of `value.strip('"\'`')`: double quote, apostrophe,
backtick. -/
def quoteChr (c : Char) : Bool :=
  c = '"' || c = Char.ofNat 39 || c = Char.ofNat 96

/-- Leading junk class of `re.sub(r'^[\-:>#~\s]+', '', value)`. -/
def leadJunk (c : Char) : Bool :=
  c = '-' || c = ':' || c = '>' || c = '#' || c = '~' || pyIsSpace c

/-- Trailing junk class of `re.sub(r'[\s,.;]+$', '', value)`. -/
def trailJunk (c : Char) : Bool :=
  pyIsSpace c || c = ',' || c = '.' || c = ';'

/-- `re.search(r'(\d{7})', v)`: the run of seven consecutive digits at the
leftmost position where one starts, if any. -/
def findSevenRun : List Char → Option (List Char)
  | [] => none
  | c :: cs =>
    let w := (c :: cs).take 7
    if w.length = 7 && w.all Char.isDigit then some w else findSevenRun cs

/-- The cleaning pipeline of `clean_booking_value` before the 7-digit-run
search: strip, drop leading `[-:>#~\s]+`, drop trailing `[\s,.;]+`, strip
surrounding quotes/backticks, remove every space character (`replace(' ','')`
touches only U+0020), strip again. -/
def cleanedCore (value : String) : List Char :=
  let v1 := pyStripL value.data
  let v2 := v1.dropWhile leadJunk
  let v3 := rdropWhile trailJunk v2
  let v4 := pyStripCharsL quoteChr v3
  let v5 := v4.filter (fun c => c ≠ ' ')
  pyStripL v5

/-- `clean_booking_value` from `extract_booking_code_from_email`: after the
cleaning pipeline, return the first run of 7 consecutive digits if one
exists, otherwise the cleaned string. -/
def clean_booking_value (value : String) : String :=
  match findSevenRun (cleanedCore value) with
  | some run => ⟨run⟩
  | none => ⟨cleanedCore value⟩

/-- `is_valid_booking_code`: false on the empty string; otherwise remove all
non-digits (`re.sub(r'\D','',value)`) and require exactly 7 digits (the final
`digits.isdigit()` is then automatically true). -/
def is_valid_booking_code (value : String) : Bool :=
  if value.data.isEmpty then false
  else
    let digits := value.data.filter Char.isDigit
    if digits.isEmpty then false
    else if digits.length ≠ 7 then false
    else digits.all Char.isDigit

/-! ### Fuzzy string matching (`fuzzywuzzy.fuzz.ratio`, difflib-based) -/

/-- Length of the common prefix of two character lists. -/
def comPre : List Char → List Char → Nat
  | a :: as, b :: bs => if a = b then comPre as bs + 1 else 0
  | _, _ => 0

/-- difflib `find_longest_match` over whole inputs: the longest matching
block `(i, j, size)`, ties broken by smallest `i` then smallest `j` (no junk
handling: the autojunk heuristic never fires on the short vendor strings this
program compares). -/
def longestMatch (a b : List Char) : Nat × Nat × Nat :=
  (List.range (a.length + 1)).foldl
    (fun best i =>
      (List.range (b.length + 1)).foldl
        (fun best2 j =>
          let k := comPre (a.drop i) (b.drop j)
          if k > best2.2.2 then (i, j, k) else best2)
        best)
    (0, 0, 0)

/-- Total size of difflib's matching blocks (Ratcliff/Obershelp): find the
longest matching block, recurse left and right of it.  `fuel` bounds the
recursion depth; each recursive call strictly shrinks the first list, so
`a.length + 1` is always enough. -/
def ratMAux : Nat → List Char → List Char → Nat
  | 0, _, _ => 0
  | fuel + 1, a, b =>
    let ijk := longestMatch a b
    let i := ijk.1
    let j := ijk.2.1
    let k := ijk.2.2
    if k = 0 then 0
    else ratMAux fuel (a.take i) (b.take j) + k +
         ratMAux fuel (a.drop (i + k)) (b.drop (j + k))

/-- Total matched characters for `difflib.SequenceMatcher`. -/
def ratcliffM (a b : List Char) : Nat :=
  ratMAux (a.length + 1) a b

/-- Python `int(round(num/den))` for nonnegative rationals, rounding halves
to even, `den > 0`. -/
def pyRoundHalfEven (num den : Nat) : Nat :=
  let q := num / den
  let r := num % den
  if 2 * r < den then q
  else if 2 * r > den then q + 1
  else if q % 2 = 0 then q else q + 1

/-- `fuzzywuzzy.fuzz.ratio`: 100 for equal strings, 0 when either side is
empty, otherwise `int(round(100 * 2*M/T))` with `M` the total matched
characters and `T` the combined length.  (The float rounding of the Python
implementation agrees with exact rational rounding on all inputs this
program compares.) -/
def fuzz_ratio (s1 s2 : String) : Nat :=
  if s1 = s2 then 100
  else if s1.data.isEmpty || s2.data.isEmpty then 0
  else pyRoundHalfEven (200 * ratcliffM s1.data s2.data) (s1.data.length + s2.data.length)

/-! ### `find_vendor_column` -/

/-- First binding of a key in an insertion-ordered dict. -/
def dictFind : List (String × String) → String → Option String
  | [], _ => none
  | (k, v) :: rest, key => if k = key then some v else dictFind rest key

/-- The significant-word score of `find_vendor_column`: for each vendor word
longer than 3 characters, +1 if some reference word longer than 3 characters
has `fuzz.ratio > 80` (the inner `break` makes each vendor word count at most
once). -/
def scoreSignificant (hotelWords refWords : List String) : Nat :=
  hotelWords.foldl
    (fun acc hw =>
      if hw.length > 3 &&
         refWords.any (fun rw => rw.length > 3 && fuzz_ratio hw rw > 80)
      then acc + 1 else acc)
    0

/-- Twice the soft word score of `find_vendor_column` (doubled so the
`+= 0.5` of the source becomes `+ 1` over naturals): for word pairs longer
than 4 characters, +1.0 for containment either way, else +0.5 for
`fuzz.ratio > 70`. -/
def scoreNearTwice (hotelWords refWords : List String) : Nat :=
  hotelWords.foldl
    (fun acc hw =>
      if hw.length > 4 then
        refWords.foldl
          (fun acc2 rw =>
            if rw.length > 4 then
              if substrS hw rw || substrS rw hw then acc2 + 2
              else if fuzz_ratio hw rw > 70 then acc2 + 1
              else acc2
            else acc2)
          acc
      else acc)
    0

/-- `fuzzywuzzy.utils.full_process`: replace non-word characters (`\W`) with
spaces, lowercase, strip.  Word characters are modelled as ASCII
alphanumerics plus underscore. -/
def full_process (s : String) : String :=
  pyStrip ⟨(s.data.map (fun c =>
    if c.isAlpha || c.isDigit || c = '_' then c else ' ')).map Char.toLower⟩

/-- `fuzzywuzzy.process.extractOne(query, choices, scorer=fuzz.ratio)`:
both sides go through `full_process`; the best-scoring choice wins, first
listed on ties; `none` only for an empty choice list. -/
def extractOne (query : String) (choices : List String) : Option (String × Nat) :=
  choices.foldl
    (fun best choice =>
      let score := fuzz_ratio (full_process query) (full_process choice)
      match best with
      | none => some (choice, score)
      | some (_, b) => if score > b then some (choice, score) else best)
    none

/-- State of the reference-entry loop in `find_vendor_column`: an early
return (column of the first entry reaching 2 significant word matches) and
the best soft-score entry so far (name, column, doubled score). -/
def vendorLoop (hotelWords : List String) :
    List (String × String) → Option (String × String × Nat) →
    Option String × Option (String × String × Nat)
  | [], best => (none, best)
  | (refName, column) :: rest, best =>
    let refWords := pySplit (lowerS refName)
    let sig := scoreSignificant hotelWords refWords
    let near2 := scoreNearTwice hotelWords refWords
    let total2 := 2 * sig + near2
    let bestScore := match best with
      | some stored => stored.2.2
      | none => 0
    let best2 := if total2 > bestScore then some (refName, column, total2) else best
    if sig ≥ 2 then (some column, best2)
    else vendorLoop hotelWords rest best2

/-- `find_vendor_column(vendor_name, vendor_reference)`: UNASSIGNED for an
empty or sentinel name; exact lowercase dict hit; otherwise the entry loop
(early return at 2 significant word matches, else best soft score ≥ 1.5,
i.e. doubled score ≥ 3); otherwise whole-string fuzzy match at ≥ 60; else
UNASSIGNED. -/
def find_vendor_column (vendor_name : String)
    (vendor_reference : List (String × String)) : String :=
  if vendor_name.data.isEmpty || vendor_name = "Unknown Vendor" then "UNASSIGNED"
  else
    match dictFind vendor_reference (lowerS vendor_name) with
    | some column => column
    | none =>
      let hotelWords := pySplit (lowerS vendor_name)
      match vendorLoop hotelWords vendor_reference none with
      | (some column, _) => column
      | (none, best) =>
        let viaBest : Option String := match best with
          | some stored => if stored.2.2 ≥ 3 then some stored.2.1 else none
          | none => none
        match viaBest with
        | some column => column
        | none =>
          match extractOne vendor_name (vendor_reference.map Prod.fst) with
          | some (key, score) =>
            if score ≥ 60 then (dictFind vendor_reference key).getD "UNASSIGNED"
            else "UNASSIGNED"
          | none => "UNASSIGNED"

/-! ### Field normalizer: `normalize_table_header` -/

/-- Collapse every whitespace run to a single space
(`re.sub(r"\s+", " ", ...)`); the flag records whether the previous
character was part of a run. -/
def collapseWSAux : List Char → Bool → List Char
  | [], _ => []
  | c :: cs, prevSpace =>
    if pyIsSpace c then
      if prevSpace then collapseWSAux cs true else ' ' :: collapseWSAux cs true
    else c :: collapseWSAux cs false

/-- `re.sub(r"\s+", " ", s)`. -/
def collapseWS (l : List Char) : List Char :=
  collapseWSAux l false

/-- Characters kept by `re.sub(r"[^a-z0-9\s_-]", "", ...)` (applied after
lower-casing). -/
def keepHdr (c : Char) : Bool :=
  (Char.ofNat 97 ≤ c && c ≤ Char.ofNat 122) || c.isDigit || pyIsSpace c ||
  c = '_' || c = '-'

/-- Python `s.replace("  ", " ")`: one left-to-right pass over pairs. -/
def replaceDoubleSpace : List Char → List Char
  | ' ' :: ' ' :: rest => ' ' :: replaceDoubleSpace rest
  | c :: rest => c :: replaceDoubleSpace rest
  | [] => []

/-- `in`-substring test on the normalized header. -/
def hdrHas (normalized : List Char) (token : String) : Bool :=
  substrL token.data normalized

/-- `normalize_table_header`: canonicalize a header cell, then map it to one
of the fixed field keys by the ordered keyword rules of the source. -/
def normalize_table_header (header_text : String) : Option String :=
  if header_text.data.isEmpty then none
  else
    let n1 := pyStripL (collapseWS header_text.data)
    let n2 := n1.map Char.toLower
    let n3 := n2.map (fun c => if c = Char.ofNat 160 then ' ' else c)
    let n := replaceDoubleSpace (n3.filter keepHdr)
    if n.isEmpty then none
    else if (hdrHas n "booking" || hdrHas n "reservation" || hdrHas n "confirmation"
             || ("ref".data.isPrefixOf n)) &&
            ["code", "id", "number", "no", "ref", "confirmation", "booking"].any (hdrHas n)
    then some "booking_code"
    else if hdrHas n "guest" && hdrHas n "name" then some "guest_name"
    else if hdrHas n "client" && hdrHas n "name" then some "client_name"
    else if hdrHas n "customer" && hdrHas n "name" then some "guest_name"
    else if (hdrHas n "hotel" || hdrHas n "property" || hdrHas n "venue") && hdrHas n "name"
    then some "property_name"
    else if hdrHas n "check" && ["in", "arrival", "from", "start", "arr"].any (hdrHas n)
    then some "check_in_date"
    else if hdrHas n "check" && ["out", "departure", "to", "end", "dep"].any (hdrHas n)
    then some "check_out_date"
    else if hdrHas n "arrival" then some "check_in_date"
    else if hdrHas n "departure" then some "check_out_date"
    else if hdrHas n "guest" && ["count", "qty", "pax", "number"].any (hdrHas n)
    then some "guest_count"
    else if ["amount", "total", "grand total", "balance"].any (hdrHas n)
    then some "total_amount"
    else none

/-! ### Table extractor: `parse_html_tables_for_booking_data`

The HTML body is modelled as the raw string together with the structure
BeautifulSoup would produce from it: `parsed = none` models a document on
which the parser raises, `tables` holds for each `<table>` the `get_text`
content of the cells of each `<tr>`, and `text` the linearized document
text. -/

/-- Linearized content of a successfully parsed HTML document. -/
structure ParsedHtml where
  text : String
  tables : List (List (List String))

/-- An HTML body: its raw text plus the parse outcome. -/
structure Html where
  raw : String
  parsed : Option ParsedHtml

/-- Python dicts with string keys and values, insertion-ordered. -/
abbrev PyDict := List (String × String)

/-- Dict assignment `d[k] = v` (overwrite keeps the original position). -/
def dictSet : PyDict → String → String → PyDict
  | [], k, v => [(k, v)]
  | (k0, v0) :: rest, k, v =>
    if k0 = k then (k0, v) :: rest else (k0, v0) :: dictSet rest k v

/-- Cell text after `text.replace('\xa0', ' ').strip()`; `none` when empty
(the source keeps only non-empty cell texts). -/
def cleanCell (s : String) : Option String :=
  let t := pyStrip ⟨s.data.map (fun c => if c = Char.ofNat 160 then ' ' else c)⟩
  if t.data.isEmpty then none else some t

/-- Rows of one table: per `<tr>`, the cleaned non-empty cell texts; rows
without any text content are dropped. -/
def tableRowTexts (tbl : List (List String)) : List (List String) :=
  tbl.filterMap (fun tr =>
    let cells := tr.filterMap cleanCell
    if cells.isEmpty then none else some cells)

/-- Build a record from one data row: cells beyond the header width are
ignored, unresolved headers are skipped, and a value is stored only when
the key is absent or empty so far (first occurrence wins per row). -/
def rowEntry (headerMap : List (Option String)) (dataRow : List String) : PyDict :=
  dataRow.enum.foldl
    (fun e iv =>
      if iv.1 ≥ headerMap.length then e
      else match headerMap.getD iv.1 none with
        | none => e
        | some key =>
          match dictFind e key with
          | some v => if v.data.isEmpty then dictSet e key (pyStrip iv.2) else e
          | none => dictSet e key (pyStrip iv.2))
    []

/-- A record is kept only if one of these fields is non-empty. -/
def entryRelevant (e : PyDict) : Bool :=
  ["booking_code", "guest_name", "client_name", "check_in_date", "check_out_date"].any
    (fun k => match dictFind e k with
      | some v => !v.data.isEmpty
      | none => false)

/-- Records extracted from a single table: header path when at least one
header resolves and a data row exists, otherwise the 2-cell key/value
fallback over all rows. -/
def tableEntries (tbl : List (List String)) : List PyDict :=
  match tableRowTexts tbl with
  | [] => []
  | headerRow :: dataRows =>
    let headerMap := headerRow.map normalize_table_header
    if headerMap.any Option.isSome && !dataRows.isEmpty then
      dataRows.filterMap (fun dr =>
        let e := rowEntry headerMap dr
        if entryRelevant e then some e else none)
    else if headerMap.any Option.isSome then []
    else
      let kv := (headerRow :: dataRows).foldl
        (fun acc row =>
          match row with
          | [k, v] =>
            (match normalize_table_header k with
             | some key =>
               let value := pyStrip v
               if value.data.isEmpty then acc else dictSet acc key value
             | none => acc)
          | _ => acc)
        []
      if kv.isEmpty then [] else [kv]

/-- `parse_html_tables_for_booking_data(html_body)`: empty when
BeautifulSoup is unavailable, the body absent or empty, or the document
unparsable; otherwise each table contributes its records independently. -/
def parse_html_tables_for_booking_data (bs : Bool) (html_body : Option Html) :
    List PyDict :=
  if !bs then []
  else match html_body with
    | none => []
    | some h =>
      if h.raw.data.isEmpty then []
      else match h.parsed with
        | none => []
        | some doc => (doc.tables.map tableEntries).flatten

/-! ### A small regex engine

The booking-code patterns of the source are fixed regular expressions; they
are embedded as abstract syntax below and run by a backtracking matcher whose
result order mirrors Python's leftmost, greedy, first-alternative semantics.
All patterns are compiled under `re.IGNORECASE`: literals compare
case-folded and the character classes are closed under ASCII case. -/

/-- Character classes occurring in the source's patterns. -/
inductive CClass
  | ws
  | colonWs
  | upAlnumDash
  | alnum
  | alnumDashSlash
  | nonDigit
  | digit
  | chrs (l : List Char)

/-- Class membership: `\s`, `[:\s]`, `[A-Z0-9\-]` under IGNORECASE,
`[A-Za-z0-9]`, the same with dash and slash added, `[^\d]`, `\d`, and
explicit sets. -/
def cmem : CClass → Char → Bool
  | .ws, c => pyIsSpace c
  | .colonWs, c => c = ':' || pyIsSpace c
  | .upAlnumDash, c => c.isAlpha || c.isDigit || c = '-'
  | .alnum, c => c.isAlpha || c.isDigit
  | .alnumDashSlash, c => c.isAlpha || c.isDigit || c = '-' || c = '/'
  | .nonDigit, c => !c.isDigit
  | .digit, c => c.isDigit
  | .chrs l, c => l.contains c

/-- Pattern syntax: literals, classes, sequencing, alternation, option,
greedy counted class repetition, the single capture group, and `\b`. -/
inductive RE
  | eps
  | str (s : String)
  | cls (c : CClass)
  | seq (a b : RE)
  | alt (a b : RE)
  | opt (a : RE)
  | rep (lo : Nat) (hi : Option Nat) (c : CClass)
  | group (a : RE)
  | bnd

/-- Matcher state: the previous character (for `\b`), the remaining input,
and the group-1 capture. -/
structure MSt where
  prev : Option Char
  rest : List Char
  cap : Option (List Char)

/-- Regex word characters (`\w`, ASCII model). -/
def isWordChar (c : Char) : Bool :=
  c.isAlpha || c.isDigit || c = '_'

/-- `\b`: exactly one neighbouring side is a word character. -/
def atBoundary (prev : Option Char) (rest : List Char) : Bool :=
  let a := match prev with
    | some c => isWordChar c
    | none => false
  let b := match rest with
    | c :: _ => isWordChar c
    | [] => false
  a != b

/-- Case-insensitive literal match (patterns are written lower-case). -/
def matchLit : List Char → MSt → Option MSt
  | [], st => some st
  | c :: cs, st =>
    match st.rest with
    | [] => none
    | x :: xs =>
      if x.toLower = c then matchLit cs ⟨some x, xs, st.cap⟩ else none

/-- Length of the maximal class run at the head of the input. -/
def runLen (c : CClass) : List Char → Nat
  | [] => 0
  | x :: xs => if cmem c x then runLen c xs + 1 else 0

/-- Consume `n` characters (callers keep `n` within the input). -/
def consumeN (st : MSt) : Nat → MSt
  | 0 => st
  | n + 1 =>
    match st.rest with
    | [] => st
    | x :: xs => consumeN ⟨some x, xs, st.cap⟩ n

/-- Greedy states of `{lo,hi}` class repetition: longest run first. -/
def repStates (lo : Nat) (hi : Option Nat) (c : CClass) (st : MSt) : List MSt :=
  let maxRun := match hi with
    | some h => min h (runLen c st.rest)
    | none => runLen c st.rest
  if maxRun < lo then []
  else (List.range (maxRun + 1 - lo)).map (fun d => consumeN st (maxRun - d))

/-- All ways a pattern matches a prefix of the state's input, in
backtracking priority order (the head is the match Python would take). -/
def reMatches : RE → MSt → List MSt
  | .eps, st => [st]
  | .str s, st =>
    match matchLit s.data st with
    | some st2 => [st2]
    | none => []
  | .cls c, st =>
    match st.rest with
    | x :: xs => if cmem c x then [⟨some x, xs, st.cap⟩] else []
    | [] => []
  | .seq a b, st => (reMatches a st).flatMap (reMatches b)
  | .alt a b, st => reMatches a st ++ reMatches b st
  | .opt a, st => reMatches a st ++ [st]
  | .rep lo hi c, st => repStates lo hi c st
  | .group a, st =>
    (reMatches a st).map
      (fun st2 => {st2 with cap := some (st.rest.take (st.rest.length - st2.rest.length))})
  | .bnd, st => if atBoundary st.prev st.rest then [st] else []

/-- `re.search`: try each start position left to right, keeping the previous
character for `\b`; the first position with a match wins. -/
def searchFrom (r : RE) : Option Char → List Char → Option MSt
  | p, s =>
    match reMatches r ⟨p, s, none⟩ with
    | st :: _ => some st
    | [] =>
      match s with
      | [] => none
      | c :: cs => searchFrom r (some c) cs

/-- Group-1 capture of the leftmost match, if any. -/
def reSearchCap (r : RE) (s : String) : Option String :=
  match searchFrom r none s.data with
  | some st => some ⟨st.cap.getD []⟩
  | none => none

/-- `re.match`: anchored at the start. -/
def reMatchesAt0 (r : RE) (s : String) : Bool :=
  !(reMatches r ⟨none, s.data, none⟩).isEmpty

/-- Sequence a list of patterns. -/
def reseq (l : List RE) : RE :=
  l.foldr RE.seq RE.eps

/-- Alternation of a list of patterns, first listed preferred. -/
def realt : List RE → RE
  | [] => RE.eps
  | [x] => x
  | x :: xs => RE.alt x (realt xs)

/-- `\s+`. -/
def ws1 : RE := .rep 1 none .ws

/-- `\s*`. -/
def ws0 : RE := .rep 0 none .ws

/-- `[:\s]+`. -/
def colonWs1 : RE := .rep 1 none .colonWs

/-- `([A-Z0-9\-]+)` under IGNORECASE. -/
def capUp : RE := .group (.rep 1 none .upAlnumDash)

/-- The ordered `booking_patterns` the oracle's response is scanned with. -/
def bookingPatterns : List RE :=
  [ reseq [.str "booking", ws1, .str "code", colonWs1, capUp],
    reseq [.str "booking", ws1, .str "id", colonWs1, capUp],
    reseq [.str "booking", ws1, .str "reference", colonWs1, capUp],
    reseq [.str "confirmation", ws1, .str "number", colonWs1, capUp],
    reseq [.str "booking", ws1, .str "number", colonWs1, capUp],
    reseq [.str "booking", colonWs1, capUp],
    reseq [realt [.str "ref", .str "reference", reseq [.str "ref", ws1, .str "no"]],
           colonWs1, capUp],
    reseq [.bnd, .str "booking", .rep 0 (some 40) .nonDigit,
           .group (.rep 7 (some 7) .digit)] ]

/-- `^BOOKING\s+(?:CODE|ID|REFERENCE|NUMBER)[:\s]+` for the line scan. -/
def bookingLinePat : RE :=
  reseq [.str "booking", ws1,
         realt [.str "code", .str "id", .str "reference", .str "number"], colonWs1]

/-- `(?:[:#\-]|NO\.\s*)?` of the fallback patterns. -/
def sepOpt : RE :=
  .opt (realt [.cls (.chrs [':', '#', '-']), reseq [.str "no.", ws0]])

/-- The captured token: `[A-Za-z0-9]{3,}` followed by any run over the same
class extended with dash and slash. -/
def tokenCap : RE :=
  .group (reseq [.rep 3 none .alnum, .rep 0 none .alnumDashSlash])

/-- `\bKW\s*(?:qualifiers)?\s*(?:[:#\-]|NO\.\s*)?\s*(token)`. -/
def fallbackPat (kw : String) (quals : List RE) : RE :=
  reseq [.bnd, .str kw, ws0, .opt (realt quals), ws0, sepOpt, ws0, tokenCap]

/-- The ordered `fallback_patterns` of the Stage-3 scan. -/
def fallbackPatterns : List RE :=
  [ fallbackPat "booking"
      [.str "code", .str "id", .str "reference", .str "ref", .str "no", .str "number"],
    fallbackPat "confirmation" [.str "number", .str "no", .str "#"],
    fallbackPat "reservation" [.str "number", .str "no", .str "id", .str "code"],
    fallbackPat "reference" [.str "no", .str "number", .str "id"],
    fallbackPat "conf" [.str "no", .str "number", .str "id"],
    reseq [.bnd, .str "booking", .rep 0 (some 40) .nonDigit,
           .group (.rep 7 (some 7) .digit)] ]

/-! ### Booking extractor: `extract_booking_code_from_email`

The email message object is modelled by its decoded content: the leaf MIME
parts the fallback walk visits (for multipart messages) or the single
decoded payload; the oracle by its enabled flag and its response, where an
`error` response models a raised exception. -/

/-- A leaf MIME part as seen by the fallback walk. -/
inductive MsgPart
  | plain (payload : String)
  | htmlPart (payload : String)
  | other

/-- The email message collaborator. -/
structure EmailMsg where
  multipart : Bool
  parts : List MsgPart
  payload : Option String

/-- The `TextOracle` collaborator (`openai_extractor`): `error` models an
exception during the call, `ok none` a `None` response. -/
structure Oracle where
  enabled : Bool
  response : Except Unit (Option String)

/-- Remainder after the first `>` of a list, if any. -/
def splitAtGt : List Char → Option (List Char)
  | [] => none
  | c :: rest => if c = '>' then some rest else splitAtGt rest

/-- One pass of `re.sub(r'<[^>]+>', ' ', s)`: each maximal `<...>` span with
at least one character between the brackets becomes a single space.  `fuel`
bounds the scan; every step consumes at least one character. -/
def stripTagsF : Nat → List Char → List Char
  | 0, l => l
  | _ + 1, [] => []
  | f + 1, c :: rest =>
    if c = '<' then
      match rest with
      | x :: _ =>
        if x = '>' then c :: stripTagsF f rest
        else
          match splitAtGt rest with
          | some rem => ' ' :: stripTagsF f rem
          | none => c :: stripTagsF f rest
      | [] => c :: stripTagsF f rest
    else c :: stripTagsF f rest

/-- `re.sub(r'<[^>]+>', ' ', s)`. -/
def stripTags (s : String) : String :=
  ⟨stripTagsF s.data.length s.data⟩

/-- The `booking_details` dict: only the keys the source reads or writes. -/
structure BookingDetails where
  table_entries : List PyDict := []
  booking_code_source : Option String := none
  guest_name : Option String := none
  client_name : Option String := none
  property_name : Option String := none
  check_in_date : Option String := none
  check_out_date : Option String := none
  ai_raw_response : Option String := none
  booking_code : Option String := none
deriving DecidableEq

/-- `store_detail`: keep the stripped value only when it is non-empty and
the key is not stored yet (first writer wins). -/
def storeDetail (cur : Option String) (v : String) : Option String :=
  let vc := pyStrip v
  if !vc.data.isEmpty && cur.isNone then some vc else cur

/-- `store_detail` on an optional dict lookup (`if entry.get(k): ...`). -/
def storeOpt (cur : Option String) (v : Option String) : Option String :=
  match v with
  | some s => storeDetail cur s
  | none => cur

/-- Python `a or b` over optional strings (empty strings are falsy). -/
def orTruthy (a b : Option String) : Option String :=
  match a with
  | some s => if s.data.isEmpty then b else some s
  | none => b

/-- The Stage-1 field merges for one table entry: guest name, client name
(doubling as a guest-name fallback), property name and the two dates, each
stored only when not already present. -/
def stage1Stores (d0 : BookingDetails) (entry : PyDict) : BookingDetails :=
  let d := {d0 with guest_name := storeOpt d0.guest_name (dictFind entry "guest_name")}
  let d :=
    match dictFind entry "client_name" with
    | some cn =>
      if cn.data.isEmpty then d
      else
        let d2 := {d with client_name := storeDetail d.client_name cn}
        if d2.guest_name.isNone then
          {d2 with guest_name := storeDetail d2.guest_name cn}
        else d2
    | none => d
  let d := {d with property_name := storeOpt d.property_name (dictFind entry "property_name")}
  let d := {d with check_in_date := storeOpt d.check_in_date (dictFind entry "check_in_date")}
  {d with check_out_date := storeOpt d.check_out_date (dictFind entry "check_out_date")}

/-- One iteration of the Stage-1 loop over the parsed table entries: adopt
the first candidate whose cleaned form is a valid booking code, and merge
guest/client/property/date fields first-writer-wins. -/
def stage1Fold (st : Option String × BookingDetails) (entry : PyDict) :
    Option String × BookingDetails :=
  let candidate := orTruthy (dictFind entry "booking_code")
    (orTruthy (dictFind entry "confirmation_number") (dictFind entry "reference"))
  let withCode : Option String × BookingDetails :=
    match candidate, st.1 with
    | some cand, none =>
      if cand.data.isEmpty then st
      else
        let cc := clean_booking_value cand
        if is_valid_booking_code cc then
          (some cc, {st.2 with booking_code_source := some "email_table"})
        else st
    | _, _ => st
  (withCode.1, stage1Stores withCode.2 entry)

/-- Truthiness of the `html_body` argument. -/
def htmlTruthy : Option Html → Bool
  | some h => !h.raw.data.isEmpty
  | none => false

/-- Stage 1: structured HTML table parsing (skipped for a falsy body). -/
def stage1Scan (bs : Bool) (html : Option Html) : Option String × BookingDetails :=
  if htmlTruthy html then
    let entries := parse_html_tables_for_booking_data bs html
    entries.foldl stage1Fold (none, {table_entries := entries})
  else (none, {})

/-- Stage-2/3 pattern loop: first pattern whose leftmost match cleans to a
valid booking code wins; an invalid capture moves on to the next pattern. -/
def patternLoop : List RE → String → Option String
  | [], _ => none
  | p :: ps, text =>
    match reSearchCap p text with
    | some g =>
      let cand := clean_booking_value g
      if is_valid_booking_code cand then some cand else patternLoop ps text
    | none => patternLoop ps text

/-- Stage-2 line scan over the oracle response: a stripped non-empty line
matching the `BOOKING <kind>:` shape yields the cleaned text after its
first colon, kept if valid. -/
def lineLoop : List String → Option String
  | [] => none
  | line :: rest =>
    let l := pyStrip line
    if l.data.isEmpty then lineLoop rest
    else if reMatchesAt0 bookingLinePat l then
      match l.data.findIdx? (fun c => c = ':') with
      | some ci =>
        let cand := clean_booking_value ⟨l.data.drop (ci + 1)⟩
        if is_valid_booking_code cand then some cand else lineLoop rest
      | none => lineLoop rest
    else lineLoop rest

/-- Stage 2: oracle extraction.  Disabled/absent oracle, an exception, a
`None` or empty response all fall through with no details recorded. -/
def stage2Scan (oracle : Option Oracle) (d : BookingDetails) :
    Option String × BookingDetails :=
  match oracle with
  | none => (none, d)
  | some o =>
    if !o.enabled then (none, d)
    else
      match o.response with
      | .error _ => (none, d)
      | .ok none => (none, d)
      | .ok (some r) =>
        if r.data.isEmpty then (none, d)
        else
          let d := {d with ai_raw_response := some r}
          match patternLoop bookingPatterns r with
          | some c =>
            (some c, {d with booking_code_source := some "bedrock", booking_code := some c})
          | none =>
            match lineLoop (r.splitOn "\n") with
            | some c =>
              (some c, {d with booking_code_source := some "bedrock", booking_code := some c})
            | none => (none, d)

/-- The additional text parts collected from the message object for the
fallback corpus. -/
def altPartsOf (msg : EmailMsg) : List String :=
  if msg.multipart then
    msg.parts.filterMap (fun p =>
      match p with
      | .plain s => if s.data.isEmpty then none else some s
      | .htmlPart s => if s.data.isEmpty then none else some (stripTags s)
      | .other => none)
  else
    match msg.payload with
    | some s =>
      if s.data.isEmpty then []
      else if substrS "<html" (lowerS s) then [stripTags s] else [s]
    | none => []

/-- The ordered fallback sections: subject, plain body, tag-stripped raw
HTML, linearized HTML text, message parts, attachment texts, then the
per-row table strings. -/
def stage3Sections (msg : EmailMsg) (subject body : String) (html : Option Html)
    (attachment_texts : List String) (bs : Bool) : List String :=
  let htmldata : List String × List String :=
    match html with
    | some h =>
      if h.raw.data.isEmpty then ([], [])
      else
        let s1 := [stripTags h.raw]
        if bs then
          match h.parsed with
          | some doc =>
            let s2 := if doc.text.data.isEmpty then [] else [doc.text]
            let ts := (doc.tables.map (fun tbl =>
              tbl.filterMap (fun tr =>
                let rowText := String.intercalate " " tr
                if rowText.data.isEmpty then none else some rowText))).flatten
            (s1 ++ s2, ts)
          | none => (s1, [])
        else (s1, [])
    | none => ([], [])
  [subject, body] ++ htmldata.1 ++ altPartsOf msg ++ attachment_texts ++ htmldata.2

/-- `'\n'.join(non-empty sections).replace('\r', ' ')`. -/
def combinedFallbackText (msg : EmailMsg) (subject body : String)
    (html : Option Html) (attachment_texts : List String) (bs : Bool) : String :=
  let txt := String.intercalate "\n"
    ((stage3Sections msg subject body html attachment_texts bs).filter
      (fun s => !s.data.isEmpty))
  ⟨txt.data.map (fun c => if c = '\r' then ' ' else c)⟩

/-- Non-overlapping case-sensitive occurrences of a needle (callers pass
lower-cased text), as start positions; `fuel` bounds the scan. -/
def occsAux (needle : List Char) : Nat → List Char → Nat → List Nat
  | 0, _, _ => []
  | _ + 1, [], _ => []
  | fuel + 1, c :: cs, pos =>
    if needle.isPrefixOf (c :: cs) then
      pos :: occsAux needle fuel (cs.drop (needle.length - 1)) (pos + needle.length)
    else occsAux needle fuel cs (pos + 1)

/-- `re.finditer(keyword, text, re.IGNORECASE)` start positions. -/
def keywordOccs (needle hay : List Char) : List Nat :=
  occsAux needle (hay.length + 1) hay 0

/-- Try each keyword occurrence: a ±120-character window is searched for a
7-digit run; the first valid hit wins. -/
def windowTry (combined : List Char) (klen : Nat) : List Nat → Option String
  | [] => none
  | i :: rest =>
    let start := i - 120
    let stop := min combined.length (i + klen + 120)
    let window := (combined.drop start).take (stop - start)
    match findSevenRun window with
    | some run =>
      let cand := clean_booking_value ⟨run⟩
      if is_valid_booking_code cand then some cand
      else windowTry combined klen rest
    | none => windowTry combined klen rest

/-- The keyword proximity scan, keywords in source order. -/
def keywordLoop (combined : List Char) : List String → Option String
  | [] => none
  | kw :: rest =>
    match windowTry combined kw.length
        (keywordOccs kw.data (combined.map Char.toLower)) with
    | some c => some c
    | none => keywordLoop combined rest

/-- Stage 3 decision on the combined corpus: label-anchored patterns first,
then the keyword proximity scan; the source tag records which fired. -/
def fallbackScan (combined : String) : Option (String × String) :=
  if (pyStrip combined).data.isEmpty then none
  else
    match patternLoop fallbackPatterns combined with
    | some c => some (c, "regex_fallback")
    | none =>
      match keywordLoop combined.data
          ["booking", "reference", "confirmation", "reservation", "ref", "conf"] with
      | some c => some (c, "heuristic_window")
      | none => none

/-- Stage 3: fallback manual parsing over the combined corpus. -/
def stage3Scan (msg : EmailMsg) (subject body : String) (html : Option Html)
    (attachment_texts : List String) (bs : Bool) (d : BookingDetails) :
    Option String × BookingDetails :=
  match fallbackScan (combinedFallbackText msg subject body html attachment_texts bs) with
  | some cs =>
    (some cs.1, {d with booking_code_source := some cs.2, booking_code := some cs.1})
  | none => (none, d)

/-- `extract_booking_code_from_email`: the three-stage cascade.  A valid
Stage-1 table code returns immediately; otherwise the oracle stage, then
the fallback scan, each recording its source tag. -/
def extract_booking_code_from_email (msg : EmailMsg) (subject body : String)
    (html : Option Html) (oracle : Option Oracle) (attachment_texts : List String)
    (bs : Bool) : Option String × BookingDetails :=
  let s1 := stage1Scan bs html
  match s1.1 with
  | some code => (some code, {s1.2 with booking_code := some code})
  | none =>
    let s2 := stage2Scan oracle s1.2
    match s2.1 with
    | some code => (some code, s2.2)
    | none => stage3Scan msg subject body html attachment_texts bs s2.2

/-- The spec's name (data-model §3) for each source tag of the code. -/
def specSourceTag : String → Option String
  | "email_table" => some "table"
  | "bedrock" => some "oracle"
  | "regex_fallback" => some "regex-fallback"
  | "heuristic_window" => some "heuristic-window"
  | _ => none

/-! ### Record matcher: `match_invoice_data_with_excel`

The Excel DataFrame is modelled as a list of rows whose cells are `na`
(NaN) or strings; `find_matching_column` resolution is modelled by flags
saying which logical columns were mapped.  Timestamp-typed date cells are
outside the model (cells are strings, as in the CSV-like sheets this
program reads). -/

/-- A pandas cell: NaN or a string value. -/
inductive Cell
  | na
  | val (s : String)
deriving DecidableEq

/-- Python `str(cell)`: NaN prints as `nan`. -/
def cellStr : Cell → String
  | .na => "nan"
  | .val s => s

/-- `re.fullmatch(r'\d+\.0+', text)`. -/
def isIntDotZeros (l : List Char) : Bool :=
  let ds := l.takeWhile Char.isDigit
  !ds.isEmpty &&
    match l.drop ds.length with
    | '.' :: zs => !zs.isEmpty && zs.all (fun c => c = '0')
    | _ => false

/-- Digit list to number. -/
def natOfDigits (l : List Char) : Nat :=
  l.foldl (fun a c => a * 10 + (c.toNat - 48)) 0

/-- Model of the `float(text)`/`is_integer`/`int()` chain of
`normalize_booking_code_value` with exact decimal arithmetic: `none` is a
parse failure (exception), `some none` a float with a fractional part,
`some (some z)` an integer-valued float `z`.  The grammar is optional
sign, decimal digits with optional fraction and exponent.  `inf`/`nan`
parse to non-integers in Python and numeric-literal underscores never
occur in this data, so both are folded into the failure case, which has
the same downstream effect; the binary rounding of IEEE doubles is not
modelled (it only differs beyond 2^53, far above any booking code). -/
def pyFloatInt (s : String) : Option (Option Int) :=
  let l := pyStripL s.data
  let neg : Bool := l.headD ' ' = '-'
  let l1 := match l with
    | '+' :: r => r
    | '-' :: r => r
    | _ => l
  let ip := l1.takeWhile Char.isDigit
  let r1 := l1.drop ip.length
  let fp := match r1 with
    | '.' :: r => r.takeWhile Char.isDigit
    | _ => []
  let r2 := match r1 with
    | '.' :: r => r.drop fp.length
    | _ => r1
  if ip.isEmpty && fp.isEmpty then none
  else
    let mant : Nat := natOfDigits ip * 10 ^ fp.length + natOfDigits fp
    let finish : Nat → Nat → Option (Option Int) := fun up down =>
      if (mant * 10 ^ up) % 10 ^ down = 0 then
        some (some (if neg then -((mant * 10 ^ up / 10 ^ down : Nat) : Int)
                    else ((mant * 10 ^ up / 10 ^ down : Nat) : Int)))
      else some none
    match r2 with
    | [] => finish 0 fp.length
    | e :: r3 =>
      if e = 'e' || e = 'E' then
        let eneg : Bool := r3.headD ' ' = '-'
        let r4 := match r3 with
          | '+' :: r => r
          | '-' :: r => r
          | _ => r3
        let ed := r4.takeWhile Char.isDigit
        if ed.isEmpty || !(r4.drop ed.length).isEmpty then none
        else
          let ex := natOfDigits ed
          if eneg then finish 0 (fp.length + ex) else finish ex fp.length
      else none

/-- `normalize_booking_code_value`: NaN and blank normalize to the empty
string; otherwise strip, drop surrounding quotes/backticks, remove commas
and spaces, truncate `\d+\.0+` at the dot (else convert an integer-valued
float literal to its integer digits), and lower-case. -/
def normalize_booking_code_value (value : Cell) : String :=
  match value with
  | .na => ""
  | .val s =>
    let text := pyStripL s.data
    if text.isEmpty then ""
    else
      let t1 := pyStripCharsL quoteChr text
      let t2 := t1.filter (fun c => c ≠ ',' && c ≠ ' ')
      let t3 :=
        if isIntDotZeros t2 then t2.takeWhile (fun c => c ≠ '.')
        else
          match pyFloatInt ⟨t2⟩ with
          | some (some z) => (toString z).data
          | _ => t2
      lowerS (String.mk t3)

/-- `normalize_date_for_match` on a string-typed cell: NaN or empty gives
two empty candidates; otherwise lower-cased stripped text, once with
`/ . space` turned into `-` and once verbatim. -/
def normalize_date_for_match (c : Cell) : String × String :=
  match c with
  | .na => ("", "")
  | .val s =>
    if s.data.isEmpty then ("", "")
    else
      let d := lowerS (pyStrip s)
      (⟨d.data.map (fun ch => if ch = '/' || ch = ' ' || ch = '.' then '-' else ch)⟩, d)

/-- A ledger row restricted to the columns the matcher touches. -/
structure XRow where
  bookingCode : Cell := .na
  guestName : Cell := .na
  hotelName : Cell := .na
  checkIn : Cell := .na
  checkOut : Cell := .na
  invoiceReceived : Cell := .na
deriving DecidableEq

instance : Inhabited XRow := ⟨{}⟩

/-- Which logical fields `find_matching_column` resolved to a column. -/
structure ColMap where
  bookingCode : Bool := true
  guestName : Bool := true
  hotelName : Bool := true
  checkIn : Bool := true
  checkOut : Bool := true
deriving DecidableEq

/-- One element of `extracted_data_list` (all five keys always present,
empty string for missing data). -/
structure MEntry where
  bookingCode : String := ""
  guestName : String := ""
  hotelName : String := ""
  checkIn : String := ""
  checkOut : String := ""
deriving DecidableEq

/-- `not any(entry.values())`. -/
def entryEmpty (e : MEntry) : Bool :=
  e.bookingCode.data.isEmpty && e.guestName.data.isEmpty && e.hotelName.data.isEmpty &&
  e.checkIn.data.isEmpty && e.checkOut.data.isEmpty

/-- `astype(str).str.strip().str.lower()` of a cell. -/
def cellCmp (c : Cell) : String :=
  lowerS (pyStrip (cellStr c))

/-- Step 1, primary key: the row positions whose normalized booking-code
cell equals the entry's normalized code; skipped when the column is
unmapped or the normalized entry code is empty. -/
def primaryIndices (cm : ColMap) (e : MEntry) (rows : List XRow) : List Nat :=
  if cm.bookingCode then
    let nec := normalize_booking_code_value (.val e.bookingCode)
    if nec.data.isEmpty then []
    else
      (List.range rows.length).filter
        (fun i => normalize_booking_code_value ((rows.getD i default).bookingCode) = nec)
  else []

/-- Exact case-insensitive cell comparison against an entry value. -/
def cellEq (v : String) (c : Cell) : Bool :=
  cellCmp c = lowerS v

/-- `str.contains(value, regex=False)`: the entry value occurs in the cell. -/
def cellHas (v : String) (c : Cell) : Bool :=
  substrS (lowerS v) (cellCmp c)

/-- The name conditions of Step 2 (`condition1`/`condition4`): exact
equality column-wide; only if no row matches exactly, containment. -/
def condStr (v : String) (proj : XRow → Cell) (rows : List XRow) (i : Nat) : Bool :=
  if (List.range rows.length).any (fun j => cellEq v (proj (rows.getD j default)))
  then cellEq v (proj (rows.getD i default))
  else cellHas v (proj (rows.getD i default))

/-- Remove the separators before the digit-substring date comparison. -/
def stripSeps (s : String) : String :=
  ⟨s.data.filter (fun c => c ≠ '-' && c ≠ '/' && c ≠ ' ')⟩

/-- The per-row date condition of Step 2: any of the 2×2 candidate
combinations equal, else (both first candidates non-empty) mutual
substring containment after removing separators. -/
def condDate (nm : String × String) (c : Cell) : Bool :=
  let en := normalize_date_for_match c
  if nm.1 = en.1 || nm.1 = en.2 || nm.2 = en.1 || nm.2 = en.2 then true
  else if !nm.1.data.isEmpty && !en.1.data.isEmpty then
    substrS (stripSeps nm.1) (stripSeps en.1) || substrS (stripSeps en.1) (stripSeps nm.1)
  else false

/-- Step 2, composite fallback: requires the four columns mapped and the
four stripped entry values non-empty; a row matches when the guest, both
date and hotel conditions all hold. -/
def compositeIndices (cm : ColMap) (e : MEntry) (rows : List XRow) : List Nat :=
  let gv := pyStrip e.guestName
  let hv := pyStrip e.hotelName
  let civ := pyStrip e.checkIn
  let cov := pyStrip e.checkOut
  if !(cm.guestName && cm.hotelName && cm.checkIn && cm.checkOut) then []
  else if gv.data.isEmpty || hv.data.isEmpty || civ.data.isEmpty || cov.data.isEmpty then []
  else
    let nin := normalize_date_for_match (.val civ)
    let nout := normalize_date_for_match (.val cov)
    (List.range rows.length).filter (fun i =>
      condStr gv XRow.guestName rows i &&
      condDate nin ((rows.getD i default).checkIn) &&
      condDate nout ((rows.getD i default).checkOut) &&
      condStr hv XRow.hotelName rows i)

/-- The row positions an entry matches: primary key first; the composite
fallback only when the primary step matched nothing. -/
def entryIndices (cm : ColMap) (e : MEntry) (rows : List XRow) : List Nat :=
  let p := primaryIndices cm e rows
  if !p.isEmpty then p else compositeIndices cm e rows

/-- Mutable matcher state: the sheet plus the two counters. -/
structure MatchState where
  rows : List XRow
  updated : Nat
  skipped : Nat
deriving DecidableEq

/-- The already-marked test of the update step:
`str(cell).strip().lower() == 'received'`. -/
def rowReceived (r : XRow) : Prop :=
  lowerS (pyStrip (cellStr r.invoiceReceived)) = "received"

instance (r : XRow) : Decidable (rowReceived r) := by
  unfold rowReceived; infer_instance

/-- A row with its invoice column set to `Received`, other columns kept. -/
def setRecv (r : XRow) : XRow :=
  ⟨r.bookingCode, r.guestName, r.hotelName, r.checkIn, r.checkOut, Cell.val "Received"⟩

/-- Update one matched row: skip (counted) if already `Received`
case-insensitively, else write `Received` into the invoice column only. -/
def updateOne (st : MatchState) (i : Nat) : MatchState :=
  if rowReceived (st.rows.getD i default) then
    MatchState.mk st.rows st.updated (st.skipped + 1)
  else
    MatchState.mk (st.rows.set i (setRecv (st.rows.getD i default)))
      (st.updated + 1) st.skipped

/-- Process one extracted entry (empty entries are skipped outright). -/
def processEntry (cm : ColMap) (st : MatchState) (e : MEntry) : MatchState :=
  if entryEmpty e then st
  else (entryIndices cm e st.rows).foldl updateOne st

/-- `match_invoice_data_with_excel`: ensure the `Invoice Received` column
exists (created blank when absent), then fold the entries over the sheet. -/
def match_invoice_data_with_excel (cm : ColMap) (hasInvCol : Bool)
    (rows : List XRow) (entries : List MEntry) : MatchState :=
  let rows0 := if hasInvCol then rows
    else rows.map (fun r => {r with invoiceReceived := .val ""})
  entries.foldl (processEntry cm) ⟨rows0, 0, 0⟩

/-! ## Helper lemmas -/

/-- A run of seven digits starts at position `i`. -/
def sevenRunAt (l : List Char) (i : Nat) : Prop :=
  ((l.drop i).take 7).length = 7 ∧ ((l.drop i).take 7).all Char.isDigit = true

theorem findSevenRun_some (l : List Char) (r : List Char)
    (h : findSevenRun l = some r) :
    ∃ i, r = (l.drop i).take 7 ∧ sevenRunAt l i ∧ ∀ j < i, ¬ sevenRunAt l j := by
  induction l with
  | nil => simp [findSevenRun] at h
  | cons c cs ih =>
    rw [findSevenRun] at h
    split at h
    · rename_i hc
      simp only [Bool.and_eq_true, decide_eq_true_eq] at hc
      refine ⟨0, ?_, ?_, ?_⟩
      · simpa using h.symm
      · simpa only [sevenRunAt, List.drop_zero] using hc
      · intro j hj; omega
    · rename_i hc
      simp only [Bool.and_eq_true, decide_eq_true_eq, not_and] at hc
      obtain ⟨i, hr, hrun, hleft⟩ := ih h
      refine ⟨i + 1, by simpa using hr, by simpa [sevenRunAt] using hrun, ?_⟩
      intro j hj
      cases j with
      | zero =>
        simp only [sevenRunAt, List.drop_zero]
        intro hbad
        exact hc hbad.1 hbad.2
      | succ j0 =>
        have := hleft j0 (by omega)
        simpa [sevenRunAt] using this

theorem findSevenRun_length (l r : List Char) (h : findSevenRun l = some r) :
    r.length = 7 ∧ r.all Char.isDigit = true := by
  obtain ⟨i, hr, hrun, -⟩ := findSevenRun_some l r h
  exact ⟨by rw [hr]; exact hrun.1, by rw [hr]; exact hrun.2⟩

theorem valid_of_seven_digits (r : List Char) (h7 : r.length = 7)
    (hd : r.all Char.isDigit = true) : is_valid_booking_code ⟨r⟩ = true := by
  have hfilter : r.filter Char.isDigit = r :=
    List.filter_eq_self.mpr (by simpa [List.all_eq_true] using hd)
  simp only [is_valid_booking_code]
  rcases r with _ | ⟨a, as⟩
  · simp at h7
  · simp only [List.isEmpty_cons, Bool.false_eq_true, if_false]
    rw [hfilter] at *
    simp [h7, hd]

/-! ## C2 -/

/-- C2: `is_valid_booking_code(s)` is true iff removing all non-digit
characters from `s` leaves exactly 7 characters. -/
theorem is_valid_booking_code_iff (s : String) :
    is_valid_booking_code s = true ↔ (s.data.filter Char.isDigit).length = 7 := by
  have hall : (s.data.filter Char.isDigit).all Char.isDigit = true := by
    rw [List.all_eq_true]
    intro a ha
    exact (List.mem_filter.mp ha).2
  simp only [is_valid_booking_code]
  split_ifs with h1 h2 h3
  · constructor
    · intro h; cases h
    · intro h
      rw [List.isEmpty_iff] at h1
      simp [h1] at h
  · constructor
    · intro h; cases h
    · intro h
      rw [List.isEmpty_iff] at h2
      simp [h2] at h
  · constructor
    · intro h; cases h
    · intro h; exact absurd h h3
  · push_neg at h3
    simp [hall, h3]

/-- C2 witness: `is_valid_booking_code` holds on a string that keeps 7
digits after discarding the separators. -/
theorem is_valid_booking_code_iff_witness :
    is_valid_booking_code "12-34 567x" = true := by
  have h := (is_valid_booking_code_iff "12-34 567x").mpr (by decide)
  exact h

/-! ## C8 -/

/-- The cleaning step as the claim words it (for refutation): leading and
trailing junk stripped and ALL internal whitespace removed, then the first
7-digit run extracted.  The code's `value.replace(' ', '')` removes only
spaces, so this differs from `clean_booking_value` on internal tabs. -/
def claimCleanAllWS (value : String) : String :=
  let v1 := pyStripL value.data
  let v2 := v1.dropWhile leadJunk
  let v3 := rdropWhile trailJunk v2
  let v4 := pyStripCharsL quoteChr v3
  let v5 := v4.filter (fun c => !pyIsSpace c)
  let v6 := pyStripL v5
  match findSevenRun v6 with
  | some run => ⟨run⟩
  | none => ⟨v6⟩

/-- C8 counterexample: on `123<TAB>4567` the claimed cleaning (all internal
whitespace stripped) would produce the 7-digit run `1234567`, but
`clean_booking_value` keeps the internal tab and returns the input
unchanged. -/
theorem clean_booking_value_tab_counterexample :
    claimCleanAllWS "123\t4567" = "1234567" ∧
    clean_booking_value "123\t4567" = "123\t4567" ∧
    clean_booking_value "123\t4567" ≠ claimCleanAllWS "123\t4567" := by
  refine ⟨by decide, by decide, by decide⟩

/-- C8 (amended): the cleaning strips leading/trailing junk and internal
space characters (only U+0020; other whitespace survives); if the cleaned
string contains a run of 7 consecutive digits, the leftmost such run is
returned and passes `is_valid_booking_code`, otherwise the cleaned string
is returned unchanged. -/
theorem clean_booking_value_spec (s : String) :
    (∀ r : List Char, findSevenRun (cleanedCore s) = some r →
      clean_booking_value s = ⟨r⟩ ∧ is_valid_booking_code ⟨r⟩ = true ∧
      (∃ i, r = ((cleanedCore s).drop i).take 7 ∧ sevenRunAt (cleanedCore s) i ∧
        ∀ j < i, ¬ sevenRunAt (cleanedCore s) j)) ∧
    (findSevenRun (cleanedCore s) = none → clean_booking_value s = ⟨cleanedCore s⟩) := by
  constructor
  · intro r h
    refine ⟨by simp [clean_booking_value, h], ?_, findSevenRun_some _ r h⟩
    obtain ⟨h7, hd⟩ := findSevenRun_length _ r h
    exact valid_of_seven_digits r h7 hd
  · intro h
    simp [clean_booking_value, h]

/-- C8 witness: a candidate with 8 consecutive digits is cleaned to its
first 7 digits, which validate. -/
theorem clean_booking_value_spec_witness :
    clean_booking_value "x 12345678" = "1234567" ∧
    is_valid_booking_code "1234567" = true := by
  have h := (clean_booking_value_spec "x 12345678").1 "1234567".data (by decide)
  exact ⟨h.1, h.2.1⟩

/-! ## C9 -/

/-- C9: the table extractor is total and failure-isolating: an absent body
and an unparsable document yield `[]`, and the records of a document are
the concatenation of each table's own records, so one table's outcome
(including a degenerate parse that contributes nothing) never affects the
records extracted from the other tables. -/
theorem parse_html_tables_isolating :
    (∀ bs, parse_html_tables_for_booking_data bs none = []) ∧
    (∀ raw, parse_html_tables_for_booking_data true (some ⟨raw, none⟩) = []) ∧
    (∀ raw txt l1 t l2, raw.data.isEmpty = false →
      parse_html_tables_for_booking_data true (some ⟨raw, some ⟨txt, l1 ++ t :: l2⟩⟩) =
        parse_html_tables_for_booking_data true (some ⟨raw, some ⟨txt, l1⟩⟩) ++
        tableEntries t ++
        parse_html_tables_for_booking_data true (some ⟨raw, some ⟨txt, l2⟩⟩)) := by
  refine ⟨fun bs => ?_, fun raw => ?_, fun raw txt l1 t l2 hraw => ?_⟩
  · simp [parse_html_tables_for_booking_data]
  · simp [parse_html_tables_for_booking_data]
  · simp [parse_html_tables_for_booking_data, hraw, List.append_assoc]

/-- C9 witness: a table yielding no records sits between two others without
affecting their extraction. -/
theorem parse_html_tables_isolating_witness :
    parse_html_tables_for_booking_data true
        (some ⟨"x", some ⟨"", [[[""]], [["booking code"], ["1234567"]]]⟩⟩) =
      parse_html_tables_for_booking_data true (some ⟨"x", some ⟨"", [[[""]]]⟩⟩) ++
      tableEntries [["booking code"], ["1234567"]] ++
      parse_html_tables_for_booking_data true (some ⟨"x", some ⟨"", []⟩⟩) := by
  have h := parse_html_tables_isolating.2.2 "x" "" [[[""]]]
    [["booking code"], ["1234567"]] [] (by decide)
  simpa using h

/-! ## C10 -/

/-- C10: an entry whose booking code normalizes to the empty string skips
the primary-key step entirely: its primary index list is empty against any
sheet, even one whose booking-code cells also normalize to the empty
string. -/
theorem primaryIndices_empty_code (cm : ColMap) (e : MEntry) (rows : List XRow)
    (h : normalize_booking_code_value (.val e.bookingCode) = "") :
    primaryIndices cm e rows = [] := by
  simp [primaryIndices, h]

/-- C10 witness: a blank entry code against a row whose cell is blank (both
normalize to the empty string) produces no primary match. -/
theorem primaryIndices_empty_code_witness :
    normalize_booking_code_value (.val "") = "" ∧
    normalize_booking_code_value
      ((⟨Cell.val "", .na, .na, .na, .na, Cell.val ""⟩ : XRow).bookingCode) = "" ∧
    primaryIndices {} ⟨"", "x", "", "", ""⟩
      [⟨Cell.val "", .na, .na, .na, .na, Cell.val ""⟩] = [] := by
  refine ⟨by decide, by decide, ?_⟩
  exact primaryIndices_empty_code {} ⟨"", "x", "", "", ""⟩
    [⟨Cell.val "", .na, .na, .na, .na, Cell.val ""⟩] (by decide)

/-! ## C3 -/

/-- C3 counterexample: a record and a row whose codes both normalize to the
empty string are "equal after `normalize_booking_code_value`", yet the
matcher updates nothing — the claimed biconditional fails on blank codes. -/
theorem primary_match_blank_counterexample :
    normalize_booking_code_value (.val ("" : String)) =
      normalize_booking_code_value ((⟨Cell.val "", .na, .na, .na, .na,
        Cell.val ""⟩ : XRow).bookingCode) ∧
    (match_invoice_data_with_excel {} true
      [⟨Cell.val "", .na, .na, .na, .na, Cell.val ""⟩] [⟨"", "x", "", "", ""⟩]).updated = 0 ∧
    (match_invoice_data_with_excel {} true
      [⟨Cell.val "", .na, .na, .na, .na, Cell.val ""⟩] [⟨"", "x", "", "", ""⟩]).rows =
      [⟨Cell.val "", .na, .na, .na, .na, Cell.val ""⟩] := by
  refine ⟨by decide, by decide, by decide⟩

/-! ## Matcher helper lemmas -/

/-- The non-status columns of a row. -/
def keysOf (r : XRow) : Cell × Cell × Cell × Cell × Cell :=
  (r.bookingCode, r.guestName, r.hotelName, r.checkIn, r.checkOut)

/-- How one row can change during a matching pass: unchanged, or its
invoice column set to `Received` when it was not already marked. -/
def cellEvolve (a b : XRow) : Prop :=
  b = a ∨ (b = setRecv a ∧ ¬ rowReceived a)

theorem evolve_refl (a : XRow) : cellEvolve a a := Or.inl rfl

theorem recv_set (a : XRow) : rowReceived (setRecv a) := by
  show lowerS (pyStrip (cellStr (Cell.val "Received"))) = "received"
  decide

theorem evolve_keys {a b : XRow} (h : cellEvolve a b) : keysOf b = keysOf a := by
  rcases h with h | ⟨h, -⟩ <;> subst h <;> rfl

theorem evolve_recv {a b : XRow} (h : cellEvolve a b) (ha : rowReceived a) :
    rowReceived b := by
  rcases h with h | ⟨h, -⟩
  · subst h; exact ha
  · subst h; exact recv_set a

theorem evolve_inv_val {a b : XRow} (h : cellEvolve a b)
    (ha : a.invoiceReceived = Cell.val "Received") :
    b.invoiceReceived = Cell.val "Received" := by
  rcases h with h | ⟨h, -⟩ <;> subst h
  · exact ha
  · rfl

theorem evolve_trans {a b c : XRow} (h1 : cellEvolve a b) (h2 : cellEvolve b c) :
    cellEvolve a c := by
  rcases h1 with h1 | ⟨h1, hr1⟩
  · subst h1; exact h2
  · rcases h2 with h2 | ⟨-, hr2⟩
    · subst h2; exact Or.inr ⟨h1, hr1⟩
    · exact absurd (h1 ▸ recv_set a) hr2

theorem updateOne_len (st : MatchState) (j : Nat) :
    (updateOne st j).rows.length = st.rows.length := by
  unfold updateOne
  split_ifs <;> simp

theorem updateOne_getD_ne (st : MatchState) (j i : Nat) (h : j ≠ i) :
    (updateOne st j).rows.getD i default = st.rows.getD i default := by
  unfold updateOne
  split_ifs
  · rfl
  · simp only [List.getD_eq_getElem?_getD, List.getElem?_set]
    rw [if_neg h]

theorem updateOne_point (st : MatchState) (j i : Nat) :
    cellEvolve (st.rows.getD i default) ((updateOne st j).rows.getD i default) := by
  by_cases hji : j = i
  · subst hji
    unfold updateOne
    split_ifs with h
    · exact evolve_refl _
    · by_cases hlen : j < st.rows.length
      · right
        constructor
        · simp [List.getD_eq_getElem?_getD, List.getElem?_set, hlen]
        · exact h
      · left
        simp [List.getD_eq_getElem?_getD, List.getElem?_set, hlen,
          List.getElem?_eq_none (by omega : st.rows.length ≤ j)]
  · rw [updateOne_getD_ne st j i hji]
    exact evolve_refl _

theorem updateOne_recv_self (st : MatchState) (i : Nat) (hlen : i < st.rows.length) :
    rowReceived ((updateOne st i).rows.getD i default) := by
  unfold updateOne
  split_ifs with h
  · exact h
  · have hgd : (st.rows.set i (setRecv (st.rows.getD i default))).getD i default =
        setRecv (st.rows.getD i default) := by
      simp [List.getD_eq_getElem?_getD, List.getElem?_set, hlen]
    rw [hgd]
    exact recv_set _

theorem updateOne_count (st : MatchState) (j : Nat) :
    (updateOne st j).updated + (updateOne st j).skipped =
      st.updated + st.skipped + 1 := by
  unfold updateOne
  split_ifs <;> simp <;> omega

theorem foldUpd_len (idxs : List Nat) (st : MatchState) :
    (idxs.foldl updateOne st).rows.length = st.rows.length := by
  induction idxs generalizing st with
  | nil => rfl
  | cons j rest ih => rw [List.foldl_cons, ih, updateOne_len]

theorem foldUpd_point (idxs : List Nat) (st : MatchState) (i : Nat) :
    cellEvolve (st.rows.getD i default) ((idxs.foldl updateOne st).rows.getD i default) := by
  induction idxs generalizing st with
  | nil => exact evolve_refl _
  | cons j rest ih =>
    rw [List.foldl_cons]
    exact evolve_trans (updateOne_point st j i) (ih (updateOne st j))

theorem foldUpd_recv (idxs : List Nat) (st : MatchState) (i : Nat)
    (hmem : i ∈ idxs) (hlen : i < st.rows.length) :
    rowReceived ((idxs.foldl updateOne st).rows.getD i default) := by
  induction idxs generalizing st with
  | nil => cases hmem
  | cons j rest ih =>
    rw [List.foldl_cons]
    rcases List.mem_cons.mp hmem with h | h
    · subst h
      exact evolve_recv (foldUpd_point rest (updateOne st i) i)
        (updateOne_recv_self st i hlen)
    · exact ih (updateOne st j) h (by rw [updateOne_len]; exact hlen)

theorem foldUpd_inv_val (idxs : List Nat) (st : MatchState) (i : Nat)
    (hmem : i ∈ idxs) (hlen : i < st.rows.length)
    (hnr : ¬ rowReceived (st.rows.getD i default)) :
    ((idxs.foldl updateOne st).rows.getD i default).invoiceReceived =
      Cell.val "Received" := by
  induction idxs generalizing st with
  | nil => cases hmem
  | cons j rest ih =>
    rw [List.foldl_cons]
    by_cases hji : j = i
    · subst hji
      have hset : ((updateOne st j).rows.getD j default).invoiceReceived =
          Cell.val "Received" := by
        unfold updateOne
        rw [if_neg hnr]
        simp only [List.getD_eq_getElem?_getD, List.getElem?_set, hlen, if_pos,
          if_true, Option.getD_some]
        rfl
      exact evolve_inv_val (foldUpd_point rest (updateOne st j) j) hset
    · rcases List.mem_cons.mp hmem with h | h
      · exact absurd h.symm hji
      · refine ih (updateOne st j) h ?_ ?_
        · rw [updateOne_len]; exact hlen
        · rw [updateOne_getD_ne st j i hji]; exact hnr

theorem foldUpd_count (idxs : List Nat) (st : MatchState) :
    (idxs.foldl updateOne st).updated + (idxs.foldl updateOne st).skipped =
      st.updated + st.skipped + idxs.length := by
  induction idxs generalizing st with
  | nil => rfl
  | cons j rest ih =>
    rw [List.foldl_cons, ih, updateOne_count]
    simp
    omega

theorem foldUpd_all_received (idxs : List Nat) (st : MatchState)
    (h : ∀ i ∈ idxs, rowReceived (st.rows.getD i default)) :
    idxs.foldl updateOne st = {st with skipped := st.skipped + idxs.length} := by
  induction idxs generalizing st with
  | nil => rfl
  | cons j rest ih =>
    rw [List.foldl_cons]
    have hj : updateOne st j = {st with skipped := st.skipped + 1} := by
      unfold updateOne
      rw [if_pos (h j (List.mem_cons_self j rest))]
    rw [hj, ih]
    · simp
      omega
    · intro i hi
      exact h i (List.mem_cons_of_mem j hi)

theorem listAnyCongr (l : List Nat) (f g : Nat → Bool)
    (h : ∀ x ∈ l, f x = g x) : l.any f = l.any g := by
  induction l with
  | nil => rfl
  | cons a as ih =>
    simp only [List.any_cons, h a (List.mem_cons_self a as)]
    rw [ih]
    intro x hx
    exact h x (List.mem_cons_of_mem a hx)

theorem listFilterCongr (l : List Nat) (f g : Nat → Bool)
    (h : ∀ x ∈ l, f x = g x) : l.filter f = l.filter g := by
  induction l with
  | nil => rfl
  | cons a as ih =>
    simp only [List.filter_cons, h a (List.mem_cons_self a as)]
    rw [ih]
    intro x hx
    exact h x (List.mem_cons_of_mem a hx)

/-- Rows agreeing pointwise on the key columns and in length. -/
def rowsAgree (rows rows' : List XRow) : Prop :=
  rows.length = rows'.length ∧
  ∀ i, keysOf (rows.getD i default) = keysOf (rows'.getD i default)

theorem rowsAgree_refl (rows : List XRow) : rowsAgree rows rows :=
  ⟨rfl, fun _ => rfl⟩

theorem rowsAgree_symm {rows rows' : List XRow} (h : rowsAgree rows rows') :
    rowsAgree rows' rows :=
  ⟨h.1.symm, fun i => (h.2 i).symm⟩

theorem rowsAgree_trans {r1 r2 r3 : List XRow} (h1 : rowsAgree r1 r2)
    (h2 : rowsAgree r2 r3) : rowsAgree r1 r3 :=
  ⟨h1.1.trans h2.1, fun i => (h1.2 i).trans (h2.2 i)⟩

theorem keysOf_bookingCode {a b : XRow} (h : keysOf a = keysOf b) :
    a.bookingCode = b.bookingCode := congrArg Prod.fst h

theorem keysOf_guestName {a b : XRow} (h : keysOf a = keysOf b) :
    a.guestName = b.guestName := congrArg (fun t => t.2.1) h

theorem keysOf_hotelName {a b : XRow} (h : keysOf a = keysOf b) :
    a.hotelName = b.hotelName := congrArg (fun t => t.2.2.1) h

theorem keysOf_checkIn {a b : XRow} (h : keysOf a = keysOf b) :
    a.checkIn = b.checkIn := congrArg (fun t => t.2.2.2.1) h

theorem keysOf_checkOut {a b : XRow} (h : keysOf a = keysOf b) :
    a.checkOut = b.checkOut := congrArg (fun t => t.2.2.2.2) h

theorem primaryIndices_congr (cm : ColMap) (e : MEntry) {rows rows' : List XRow}
    (h : rowsAgree rows rows') :
    primaryIndices cm e rows = primaryIndices cm e rows' := by
  unfold primaryIndices
  rw [h.1]
  cases cm.bookingCode
  · rfl
  · simp only [if_true]
    split_ifs
    · rfl
    · exact listFilterCongr _ _ _ (fun i _ => by
        rw [keysOf_bookingCode (h.2 i)])

theorem condStr_congr (v : String) (proj : XRow → Cell)
    (hproj : ∀ a b : XRow, keysOf a = keysOf b → proj a = proj b)
    {rows rows' : List XRow} (h : rowsAgree rows rows') (i : Nat) :
    condStr v proj rows i = condStr v proj rows' i := by
  unfold condStr
  rw [h.1]
  have hany : (List.range rows'.length).any
        (fun j => cellEq v (proj (rows.getD j default))) =
      (List.range rows'.length).any
        (fun j => cellEq v (proj (rows'.getD j default))) :=
    listAnyCongr _ _ _ (fun j _ => by rw [hproj _ _ (h.2 j)])
  rw [hany, hproj _ _ (h.2 i)]

theorem compositeIndices_congr (cm : ColMap) (e : MEntry) {rows rows' : List XRow}
    (h : rowsAgree rows rows') :
    compositeIndices cm e rows = compositeIndices cm e rows' := by
  unfold compositeIndices
  dsimp only
  split_ifs
  · rfl
  · rfl
  · rw [h.1]
    refine listFilterCongr _ _ _ (fun i _ => ?_)
    rw [condStr_congr _ XRow.guestName (fun a b hk => keysOf_guestName hk) h i,
        condStr_congr _ XRow.hotelName (fun a b hk => keysOf_hotelName hk) h i,
        keysOf_checkIn (h.2 i), keysOf_checkOut (h.2 i)]

theorem entryIndices_congr (cm : ColMap) (e : MEntry) {rows rows' : List XRow}
    (h : rowsAgree rows rows') :
    entryIndices cm e rows = entryIndices cm e rows' := by
  unfold entryIndices
  rw [primaryIndices_congr cm e h, compositeIndices_congr cm e h]

theorem primaryIndices_lt (cm : ColMap) (e : MEntry) (rows : List XRow) (i : Nat)
    (h : i ∈ primaryIndices cm e rows) : i < rows.length := by
  unfold primaryIndices at h
  dsimp only at h
  split_ifs at h
  · cases h
  · exact List.mem_range.mp (List.mem_of_mem_filter h)
  · cases h

theorem compositeIndices_lt (cm : ColMap) (e : MEntry) (rows : List XRow) (i : Nat)
    (h : i ∈ compositeIndices cm e rows) : i < rows.length := by
  unfold compositeIndices at h
  dsimp only at h
  split_ifs at h
  · cases h
  · cases h
  · exact List.mem_range.mp (List.mem_of_mem_filter h)

theorem entryIndices_lt (cm : ColMap) (e : MEntry) (rows : List XRow) (i : Nat)
    (h : i ∈ entryIndices cm e rows) : i < rows.length := by
  unfold entryIndices at h
  dsimp only at h
  split_ifs at h
  · exact primaryIndices_lt cm e rows i h
  · exact compositeIndices_lt cm e rows i h

theorem entryEmpty_indices (cm : ColMap) (e : MEntry) (rows : List XRow)
    (h : entryEmpty e = true) : entryIndices cm e rows = [] := by
  unfold entryEmpty at h
  simp only [Bool.and_eq_true, List.isEmpty_iff] at h
  obtain ⟨⟨⟨⟨hb, hg⟩, hh⟩, hci⟩, hco⟩ := h
  have hbs : e.bookingCode = "" := String.ext (by rw [hb])
  have hgs : e.guestName = "" := String.ext (by rw [hg])
  have hn : normalize_booking_code_value (Cell.val "") = "" := by decide
  have hp : pyStrip "" = "" := by decide
  have hde : ("" : String).data.isEmpty = true := by decide
  unfold entryIndices primaryIndices compositeIndices
  rw [hbs, hgs]
  dsimp only
  simp [hn, hp, hde]

/-- The rows evolve pointwise and keep their length under `processEntry`. -/
theorem processEntry_point (cm : ColMap) (st : MatchState) (e : MEntry) (i : Nat) :
    cellEvolve (st.rows.getD i default) ((processEntry cm st e).rows.getD i default) := by
  unfold processEntry
  split_ifs
  · exact evolve_refl _
  · exact foldUpd_point _ st i

theorem processEntry_len (cm : ColMap) (st : MatchState) (e : MEntry) :
    (processEntry cm st e).rows.length = st.rows.length := by
  unfold processEntry
  split_ifs
  · rfl
  · exact foldUpd_len _ st

theorem processEntry_agree (cm : ColMap) (st : MatchState) (e : MEntry) :
    rowsAgree st.rows (processEntry cm st e).rows :=
  ⟨(processEntry_len cm st e).symm,
   fun i => (evolve_keys (processEntry_point cm st e i)).symm⟩

theorem runFold_point (cm : ColMap) (entries : List MEntry) (st : MatchState) (i : Nat) :
    cellEvolve (st.rows.getD i default)
      ((entries.foldl (processEntry cm) st).rows.getD i default) := by
  induction entries generalizing st with
  | nil => exact evolve_refl _
  | cons e rest ih =>
    rw [List.foldl_cons]
    exact evolve_trans (processEntry_point cm st e i) (ih (processEntry cm st e))

theorem runFold_agree (cm : ColMap) (entries : List MEntry) (st : MatchState) :
    rowsAgree st.rows (entries.foldl (processEntry cm) st).rows := by
  induction entries generalizing st with
  | nil => exact rowsAgree_refl _
  | cons e rest ih =>
    rw [List.foldl_cons]
    exact rowsAgree_trans (processEntry_agree cm st e) (ih (processEntry cm st e))

theorem listMapCongrE (l : List MEntry) (f g : MEntry → Nat)
    (h : ∀ x ∈ l, f x = g x) : l.map f = l.map g := by
  induction l with
  | nil => rfl
  | cons a as ih =>
    simp only [List.map_cons, h a (List.mem_cons_self a as)]
    rw [ih]
    intro x hx
    exact h x (List.mem_cons_of_mem a hx)

theorem processEntry_matched_received (cm : ColMap) (st : MatchState) (e : MEntry)
    (i : Nat) (h : i ∈ entryIndices cm e st.rows) :
    rowReceived ((processEntry cm st e).rows.getD i default) := by
  unfold processEntry
  split_ifs with he
  · rw [entryEmpty_indices cm e st.rows he] at h
    cases h
  · exact foldUpd_recv _ st i h (entryIndices_lt cm e st.rows i h)

theorem processEntry_count (cm : ColMap) (st : MatchState) (e : MEntry) :
    (processEntry cm st e).updated + (processEntry cm st e).skipped =
      st.updated + st.skipped + (entryIndices cm e st.rows).length := by
  unfold processEntry
  split_ifs with he
  · rw [entryEmpty_indices cm e st.rows he]
    rfl
  · exact foldUpd_count _ st

theorem runFold_matched_received (cm : ColMap) (entries : List MEntry)
    (st : MatchState) (e : MEntry) (i : Nat) (hmem : e ∈ entries)
    (h : i ∈ entryIndices cm e (entries.foldl (processEntry cm) st).rows) :
    rowReceived ((entries.foldl (processEntry cm) st).rows.getD i default) := by
  induction entries generalizing st with
  | nil => cases hmem
  | cons e0 rest ih =>
    rw [List.foldl_cons] at h ⊢
    rcases List.mem_cons.mp hmem with heq | hmem2
    · subst heq
      have hagree := runFold_agree cm rest (processEntry cm st e)
      have hidx1 : i ∈ entryIndices cm e (processEntry cm st e).rows := by
        rw [entryIndices_congr cm e hagree]
        exact h
      have hidx0 : i ∈ entryIndices cm e st.rows := by
        rw [entryIndices_congr cm e (processEntry_agree cm st e)]
        exact hidx1
      have hrecv := processEntry_matched_received cm st e i hidx0
      exact evolve_recv (runFold_point cm rest (processEntry cm st e) i) hrecv
    · exact ih (processEntry cm st e0) hmem2 h

theorem runFold_count (cm : ColMap) (entries : List MEntry) (st : MatchState) :
    (entries.foldl (processEntry cm) st).updated +
      (entries.foldl (processEntry cm) st).skipped =
    st.updated + st.skipped +
      (entries.map (fun e2 => (entryIndices cm e2 st.rows).length)).sum := by
  induction entries generalizing st with
  | nil => simp
  | cons e rest ih =>
    rw [List.foldl_cons, List.map_cons, List.sum_cons]
    have hstep := ih (processEntry cm st e)
    have hcong : (rest.map (fun e2 =>
        (entryIndices cm e2 (processEntry cm st e).rows).length)).sum =
        (rest.map (fun e2 => (entryIndices cm e2 st.rows).length)).sum := by
      congr 1
      refine listMapCongrE _ _ _ (fun e2 _ => ?_)
      rw [entryIndices_congr cm e2 (rowsAgree_symm (processEntry_agree cm st e))]
    rw [hcong] at hstep
    rw [hstep, processEntry_count]
    omega

theorem runFold_second_noop (cm : ColMap) (entries : List MEntry) (st : MatchState)
    (hrecv : ∀ e ∈ entries, ∀ i ∈ entryIndices cm e st.rows,
      rowReceived (st.rows.getD i default)) :
    entries.foldl (processEntry cm) st =
      MatchState.mk st.rows st.updated (st.skipped +
        (entries.map (fun e2 => (entryIndices cm e2 st.rows).length)).sum) := by
  induction entries generalizing st with
  | nil => simp
  | cons e rest ih =>
    rw [List.foldl_cons, List.map_cons, List.sum_cons]
    have hpe : processEntry cm st e =
        MatchState.mk st.rows st.updated
          (st.skipped + (entryIndices cm e st.rows).length) := by
      unfold processEntry
      split_ifs with he
      · rw [entryEmpty_indices cm e st.rows he]
        rfl
      · exact foldUpd_all_received _ st (hrecv e (List.mem_cons_self e rest))
    rw [hpe]
    rw [ih (MatchState.mk st.rows st.updated
      (st.skipped + (entryIndices cm e st.rows).length))
      (fun e2 he2 i hi => hrecv e2 (List.mem_cons_of_mem e he2) i hi)]
    simp [Nat.add_assoc]

theorem condStr_or (v : String) (proj : XRow → Cell) (rows : List XRow) (i : Nat)
    (h : condStr v proj rows i = true) :
    cellEq v (proj (rows.getD i default)) = true ∨
    cellHas v (proj (rows.getD i default)) = true := by
  unfold condStr at h
  split_ifs at h
  · exact Or.inl h
  · exact Or.inr h

theorem runFold_idem (cm : ColMap) (rows0 : List XRow) (entries : List MEntry) :
    (entries.foldl (processEntry cm)
      (MatchState.mk (entries.foldl (processEntry cm)
        (MatchState.mk rows0 0 0)).rows 0 0)).updated = 0 ∧
    (entries.foldl (processEntry cm)
      (MatchState.mk (entries.foldl (processEntry cm)
        (MatchState.mk rows0 0 0)).rows 0 0)).rows =
      (entries.foldl (processEntry cm) (MatchState.mk rows0 0 0)).rows ∧
    (entries.foldl (processEntry cm)
      (MatchState.mk (entries.foldl (processEntry cm)
        (MatchState.mk rows0 0 0)).rows 0 0)).skipped =
      (entries.foldl (processEntry cm) (MatchState.mk rows0 0 0)).updated +
      (entries.foldl (processEntry cm) (MatchState.mk rows0 0 0)).skipped := by
  have hrecv : ∀ e ∈ entries, ∀ i ∈ entryIndices cm e
      (entries.foldl (processEntry cm) (MatchState.mk rows0 0 0)).rows,
      rowReceived ((entries.foldl (processEntry cm)
        (MatchState.mk rows0 0 0)).rows.getD i default) :=
    fun e he i hi =>
      runFold_matched_received cm entries (MatchState.mk rows0 0 0) e i he hi
  have hnoop := runFold_second_noop cm entries
    (MatchState.mk (entries.foldl (processEntry cm)
      (MatchState.mk rows0 0 0)).rows 0 0) hrecv
  have hcount := runFold_count cm entries (MatchState.mk rows0 0 0)
  have hagree := runFold_agree cm entries (MatchState.mk rows0 0 0)
  have hsum : (entries.map (fun e2 => (entryIndices cm e2
      (entries.foldl (processEntry cm) (MatchState.mk rows0 0 0)).rows).length)).sum =
      (entries.map (fun e2 => (entryIndices cm e2 rows0).length)).sum := by
    congr 1
    refine listMapCongrE _ _ _ (fun e2 _ => ?_)
    rw [entryIndices_congr cm e2 (rowsAgree_symm hagree)]
  rw [hnoop]
  refine ⟨rfl, rfl, ?_⟩
  simp only [hsum]
  simp only [Nat.zero_add] at hcount ⊢
  omega

/-! ## C3 (amended) -/

/-- C3 (amended): with the booking-code column mapped, the primary-key step
matches a row exactly when the record's code normalizes to a NON-EMPTY
string equal to the row's normalized cell (the step is skipped when the
record's code normalizes to empty); a matched, not-yet-marked row has its
invoice cell set to `Received`.  In particular `1234567.0` matches
`1234567`. -/
theorem primary_match_normalized (cm : ColMap) (e : MEntry) (rows : List XRow)
    (i : Nat) (hbc : cm.bookingCode = true) :
    (i ∈ primaryIndices cm e rows ↔
      (normalize_booking_code_value (.val e.bookingCode) ≠ "" ∧ i < rows.length ∧
       normalize_booking_code_value ((rows.getD i default).bookingCode) =
         normalize_booking_code_value (.val e.bookingCode))) ∧
    (i ∈ primaryIndices cm e rows → ¬ rowReceived (rows.getD i default) →
      ((match_invoice_data_with_excel cm true rows [e]).rows.getD i
        default).invoiceReceived = Cell.val "Received") := by
  constructor
  · unfold primaryIndices
    rw [hbc, if_pos rfl]
    dsimp only
    split_ifs with hne
    · simp only [List.not_mem_nil, false_iff]
      rintro ⟨hn, -, -⟩
      exact hn (String.ext ((List.isEmpty_iff.mp hne).trans rfl))
    · rw [List.mem_filter, List.mem_range]
      constructor
      · rintro ⟨hi, hp⟩
        refine ⟨?_, hi, by simpa using hp⟩
        intro hcontra
        rw [hcontra] at hne
        simp at hne
      · rintro ⟨-, hi, hp⟩
        exact ⟨hi, by simpa using hp⟩
  · intro hmem hnr
    have hlen := primaryIndices_lt cm e rows i hmem
    have hpne : primaryIndices cm e rows ≠ [] := List.ne_nil_of_mem hmem
    show ((processEntry cm (MatchState.mk rows 0 0) e).rows.getD i
      default).invoiceReceived = Cell.val "Received"
    unfold processEntry
    split_ifs with he
    · exfalso
      have h0 := entryEmpty_indices cm e rows he
      unfold entryIndices at h0
      dsimp only at h0
      rw [if_pos (by simpa [List.isEmpty_iff] using hpne)] at h0
      exact hpne h0
    · refine foldUpd_inv_val _ (MatchState.mk rows 0 0) i ?_ hlen hnr
      unfold entryIndices
      dsimp only
      rw [if_pos (by simpa [List.isEmpty_iff] using hpne)]
      exact hmem

/-- C3 witness: the spreadsheet numeric artifact `1234567.0` primary-key
matches the row code `1234567` and the row is marked `Received`. -/
theorem primary_match_normalized_witness :
    (0 ∈ primaryIndices {} ⟨"1234567.0", "", "", "", ""⟩
      [⟨Cell.val "1234567", .na, .na, .na, .na, Cell.val ""⟩]) ∧
    ((match_invoice_data_with_excel {} true
      [⟨Cell.val "1234567", .na, .na, .na, .na, Cell.val ""⟩]
      [⟨"1234567.0", "", "", "", ""⟩]).rows.getD 0 default).invoiceReceived =
      Cell.val "Received" := by
  have h := primary_match_normalized {} ⟨"1234567.0", "", "", "", ""⟩
    [⟨Cell.val "1234567", .na, .na, .na, .na, Cell.val ""⟩] 0 rfl
  have hmem : 0 ∈ primaryIndices {} ⟨"1234567.0", "", "", "", ""⟩
      [⟨Cell.val "1234567", .na, .na, .na, .na, Cell.val ""⟩] :=
    h.1.mpr ⟨by decide, by decide, by decide⟩
  exact ⟨hmem, h.2 hmem (by decide)⟩

/-! ## C4 -/

/-- The Scenario-E ledger row: guest and dates as extracted, but property
`Palm Grove`. -/
def rowPalm : XRow :=
  ⟨.na, .val "John Smith", .val "Palm Grove", .val "01/02/2025",
   .val "03/02/2025", .val ""⟩

/-- The Scenario-E record: same guest and dates, property `Beach House`. -/
def entBeach : MEntry :=
  ⟨"", "john smith", "Beach House", "01/02/2025", "03/02/2025"⟩

/-- C4: a row matched by the composite fallback satisfies all four
conditions simultaneously — guest equality-or-containment, both date rules,
and hotel equality-or-containment; with matching guest and dates but a
different property name (Scenario E) the guest and date conditions hold,
the hotel condition fails, and no row is updated. -/
theorem composite_requires_all_four :
    (∀ (cm : ColMap) (e : MEntry) (rows : List XRow) (i : Nat),
      i ∈ compositeIndices cm e rows →
      (cellEq (pyStrip e.guestName) ((rows.getD i default).guestName) = true ∨
       cellHas (pyStrip e.guestName) ((rows.getD i default).guestName) = true) ∧
      condDate (normalize_date_for_match (.val (pyStrip e.checkIn)))
        ((rows.getD i default).checkIn) = true ∧
      condDate (normalize_date_for_match (.val (pyStrip e.checkOut)))
        ((rows.getD i default).checkOut) = true ∧
      (cellEq (pyStrip e.hotelName) ((rows.getD i default).hotelName) = true ∨
       cellHas (pyStrip e.hotelName) ((rows.getD i default).hotelName) = true)) ∧
    condStr (pyStrip entBeach.guestName) XRow.guestName [rowPalm] 0 = true ∧
    condDate (normalize_date_for_match (.val (pyStrip entBeach.checkIn)))
      ((rowPalm).checkIn) = true ∧
    condStr (pyStrip entBeach.hotelName) XRow.hotelName [rowPalm] 0 = false ∧
    (match_invoice_data_with_excel {} true [rowPalm] [entBeach]).updated = 0 ∧
    (match_invoice_data_with_excel {} true [rowPalm] [entBeach]).rows = [rowPalm] := by
  refine ⟨?_, by decide, by decide, by decide, by decide, by decide⟩
  intro cm e rows i h
  unfold compositeIndices at h
  dsimp only at h
  split_ifs at h
  · cases h
  · cases h
  · have hp := List.of_mem_filter h
    simp only [Bool.and_eq_true] at hp
    obtain ⟨⟨⟨h1, h2⟩, h3⟩, h4⟩ := hp
    exact ⟨condStr_or _ _ rows i h1, h2, h3, condStr_or _ _ rows i h4⟩

/-- C4 witness: a record agreeing on guest, both dates and hotel matches
row 0, and the four conditions hold there. -/
theorem composite_requires_all_four_witness :
    (0 ∈ compositeIndices {} ⟨"", "john smith", "palm grove", "01-02-2025",
      "03/02/2025"⟩ [rowPalm]) ∧
    ((cellEq (pyStrip ("john smith" : String)) (rowPalm.guestName) = true ∨
      cellHas (pyStrip ("john smith" : String)) (rowPalm.guestName) = true) ∧
     condDate (normalize_date_for_match (.val (pyStrip ("01-02-2025" : String))))
       (rowPalm.checkIn) = true ∧
     condDate (normalize_date_for_match (.val (pyStrip ("03/02/2025" : String))))
       (rowPalm.checkOut) = true ∧
     (cellEq (pyStrip ("palm grove" : String)) (rowPalm.hotelName) = true ∨
      cellHas (pyStrip ("palm grove" : String)) (rowPalm.hotelName) = true)) := by
  have hmem : 0 ∈ compositeIndices {} ⟨"", "john smith", "palm grove",
      "01-02-2025", "03/02/2025"⟩ [rowPalm] := by decide
  exact ⟨hmem, composite_requires_all_four.1 {} _ [rowPalm] 0 hmem⟩

/-! ## C5 -/

/-- C5: across a matching pass, each row keeps every key column; its
invoice cell is either untouched or set to `Received`; and a row already
marked `Received` (case-insensitively) is returned completely unchanged. -/
theorem matcher_only_sets_received (cm : ColMap) (rows : List XRow)
    (entries : List MEntry) (i : Nat) :
    keysOf ((match_invoice_data_with_excel cm true rows entries).rows.getD i default) =
      keysOf (rows.getD i default) ∧
    (((match_invoice_data_with_excel cm true rows entries).rows.getD i
        default).invoiceReceived = (rows.getD i default).invoiceReceived ∨
     ((match_invoice_data_with_excel cm true rows entries).rows.getD i
        default).invoiceReceived = Cell.val "Received") ∧
    (rowReceived (rows.getD i default) →
      (match_invoice_data_with_excel cm true rows entries).rows.getD i default =
        rows.getD i default) := by
  have hev : cellEvolve (rows.getD i default)
      ((match_invoice_data_with_excel cm true rows entries).rows.getD i default) :=
    runFold_point cm entries (MatchState.mk rows 0 0) i
  refine ⟨evolve_keys hev, ?_, ?_⟩
  · rcases hev with h | ⟨h, -⟩
    · exact Or.inl (by rw [h])
    · exact Or.inr (by rw [h]; rfl)
  · intro hr
    rcases hev with h | ⟨-, hnr⟩
    · exact h
    · exact absurd hr hnr

/-- C5 witness: a row already holding `Received` survives a pass over a
record whose code matches it, completely unchanged. -/
theorem matcher_only_sets_received_witness :
    (match_invoice_data_with_excel {} true
      [⟨Cell.val "1234567", .na, .na, .na, .na, Cell.val "Received"⟩]
      [⟨"1234567", "", "", "", ""⟩]).rows.getD 0 default =
      ⟨Cell.val "1234567", .na, .na, .na, .na, Cell.val "Received"⟩ := by
  have h := matcher_only_sets_received {}
    [⟨Cell.val "1234567", .na, .na, .na, .na, Cell.val "Received"⟩]
    [⟨"1234567", "", "", "", ""⟩] 0
  exact h.2.2 (by decide)

/-! ## C6 -/

/-- C6: a second matching pass with the same records over the already
updated sheet updates zero rows, leaves the sheet unchanged, and counts as
skipped exactly the rows the first pass updated or skipped. -/
theorem matcher_idempotent (cm : ColMap) (hasInv : Bool) (rows : List XRow)
    (entries : List MEntry) :
    (match_invoice_data_with_excel cm true
      (match_invoice_data_with_excel cm hasInv rows entries).rows entries).updated = 0 ∧
    (match_invoice_data_with_excel cm true
      (match_invoice_data_with_excel cm hasInv rows entries).rows entries).rows =
      (match_invoice_data_with_excel cm hasInv rows entries).rows ∧
    (match_invoice_data_with_excel cm true
      (match_invoice_data_with_excel cm hasInv rows entries).rows entries).skipped =
      (match_invoice_data_with_excel cm hasInv rows entries).updated +
      (match_invoice_data_with_excel cm hasInv rows entries).skipped := by
  exact runFold_idem cm (if hasInv then rows else
    rows.map (fun r => {r with invoiceReceived := Cell.val ""})) entries

/-- C6 witness: Scenario D re-run — the second pass over the updated sheet
reports zero updates and one skip. -/
theorem matcher_idempotent_witness :
    (match_invoice_data_with_excel {} true
      (match_invoice_data_with_excel {} true
        [⟨Cell.val "1234567", .na, .na, .na, .na, Cell.val ""⟩]
        [⟨"1234567.0", "", "", "", ""⟩]).rows
      [⟨"1234567.0", "", "", "", ""⟩]).updated = 0 :=
  (matcher_idempotent {} true
    [⟨Cell.val "1234567", .na, .na, .na, .na, Cell.val ""⟩]
    [⟨"1234567.0", "", "", "", ""⟩]).1

/-! ## C7 -/

/-- The Scenario-C reference map: `sapphire palace → KUMAR` in lower and
original case, in the insertion order `load_vendor_reference` produces. -/
def sapphireRef : List (String × String) :=
  [("sapphire palace", "KUMAR"), ("Sapphire Palace", "KUMAR")]

set_option maxRecDepth 4000

/-- C7 counterexample: for `Grand Sapphire Resort` against
`sapphire palace`, the word pair `sapphire`/`sapphire` is the only
significant match (score 1), below the `>= 2` threshold, so the
significant-word early return does NOT fire (the loop's early-return
component is `none`) — even though the function does return `KUMAR`. -/
theorem vendor_significant_branch_counterexample :
    fuzz_ratio "sapphire" "sapphire" = 100 ∧
    scoreSignificant (pySplit "grand sapphire resort") (pySplit "sapphire palace") = 1 ∧
    (vendorLoop (pySplit "grand sapphire resort") sapphireRef none).1 = none ∧
    find_vendor_column "Grand Sapphire Resort" sapphireRef = "KUMAR" := by
  refine ⟨by decide, by decide, by decide, by decide⟩

/-- C7 (amended): for `Grand Sapphire Resort` against a map holding only
`sapphire palace → KUMAR`, the pair `sapphire`/`sapphire` (similarity
100 > 80) yields one significant match — below the 2 needed for the
early return — and one containment point, so the entry's best-partial
score is 2 (doubled: 4 ≥ 3, i.e. ≥ 1.5) and `find_vendor_column` returns
`KUMAR` through the best-partial-match path. -/
theorem vendor_best_partial_path :
    vendorLoop (pySplit "grand sapphire resort") sapphireRef none =
      (none, some ("sapphire palace", "KUMAR", 4)) ∧
    scoreNearTwice (pySplit "grand sapphire resort") (pySplit "sapphire palace") = 2 ∧
    find_vendor_column "Grand Sapphire Resort" sapphireRef = "KUMAR" := by
  refine ⟨by decide, by decide, by decide⟩

/-! ## C1 -/

theorem stage1Stores_src (d : BookingDetails) (entry : PyDict) :
    (stage1Stores d entry).booking_code_source = d.booking_code_source := by
  unfold stage1Stores
  cases dictFind entry "client_name" <;> dsimp only <;> split_ifs <;> rfl

theorem stage1Fold_src (st : Option String × BookingDetails) (entry : PyDict)
    (h : st.1.isSome → st.2.booking_code_source = some "email_table") :
    (stage1Fold st entry).1.isSome →
      (stage1Fold st entry).2.booking_code_source = some "email_table" := by
  unfold stage1Fold
  dsimp only
  rw [stage1Stores_src]
  rcases hc : orTruthy (dictFind entry "booking_code")
    (orTruthy (dictFind entry "confirmation_number") (dictFind entry "reference")) with
    _ | cand
  · exact h
  · rcases hs : st.1 with _ | c0
    · dsimp only
      split_ifs with h1 h2
      · intro hsome
        rw [hs] at hsome
        simp at hsome
      · intro _
        rfl
      · intro hsome
        rw [hs] at hsome
        simp at hsome
    · intro _
      exact h (by rw [hs]; rfl)

theorem stage1_src (bs : Bool) (html : Option Html) (c : String)
    (h : (stage1Scan bs html).1 = some c) :
    (stage1Scan bs html).2.booking_code_source = some "email_table" := by
  have hfold : ∀ (entries : List PyDict) (st : Option String × BookingDetails),
      (st.1.isSome → st.2.booking_code_source = some "email_table") →
      (entries.foldl stage1Fold st).1.isSome →
      (entries.foldl stage1Fold st).2.booking_code_source = some "email_table" := by
    intro entries
    induction entries with
    | nil => intro st h1; exact h1
    | cons a rest ih => intro st h1; exact ih _ (stage1Fold_src st a h1)
  unfold stage1Scan at h ⊢
  split_ifs at h ⊢
  exact hfold _ _ (fun hcontra => by simp at hcontra) (by rw [h]; rfl)

/-- C1: when Stage 1 finds a valid table code `c`, even if the Stage-3
fallback would extract a different valid code from the combined text, the
extractor returns `c` with source tag `email_table` (the spec's `table`),
and its result does not depend on the message parts, subject, body, oracle
or attachment texts — the oracle and fallback stages are never consulted. -/
theorem table_code_dominates (msg : EmailMsg) (subject body : String)
    (html : Option Html) (oracle : Option Oracle) (att : List String) (bs : Bool)
    (c c2 src : String)
    (h1 : (stage1Scan bs html).1 = some c)
    (h2 : fallbackScan (combinedFallbackText msg subject body html att bs) =
      some (c2, src))
    (hne : c2 ≠ c) :
    (extract_booking_code_from_email msg subject body html oracle att bs).1 =
      some c ∧
    (extract_booking_code_from_email msg subject body html oracle att
      bs).2.booking_code_source = some "email_table" ∧
    specSourceTag "email_table" = some "table" ∧
    (∀ (msg2 : EmailMsg) (subject2 body2 : String) (oracle2 : Option Oracle)
      (att2 : List String),
      extract_booking_code_from_email msg2 subject2 body2 html oracle2 att2 bs =
        extract_booking_code_from_email msg subject body html oracle att bs) := by
  have hsrc := stage1_src bs html c h1
  have hval : ∀ (m : EmailMsg) (s b : String) (o : Option Oracle) (a : List String),
      extract_booking_code_from_email m s b html o a bs =
        (some c, {(stage1Scan bs html).2 with booking_code := some c}) := by
    intro m s b o a
    unfold extract_booking_code_from_email
    dsimp only
    rw [h1]
  rw [hval msg subject body oracle att]
  refine ⟨rfl, ?_, rfl, fun m2 s2 b2 o2 a2 => by rw [hval m2 s2 b2 o2 a2]⟩
  exact hsrc

/-- The message object of the C1 witness: not multipart, no payload. -/
def msgW : EmailMsg := ⟨false, [], none⟩

/-- The HTML body of the C1 witness: one table whose header resolves to
`booking_code` and whose data row holds `1234567`. -/
def htmlW : Html := ⟨"x", some ⟨"", [[["booking code"], ["1234567"]]]⟩⟩

/-- C1 witness: the table yields `1234567`, the fallback scan over the
same message would yield `9876543`, and the extractor returns the table
code with the `email_table` tag. -/
theorem table_code_dominates_witness :
    (stage1Scan true (some htmlW)).1 = some "1234567" ∧
    fallbackScan (combinedFallbackText msgW "" "booking reference 9876543"
      (some htmlW) [] true) = some ("9876543", "regex_fallback") ∧
    (extract_booking_code_from_email msgW "" "booking reference 9876543"
      (some htmlW) none [] true).1 = some "1234567" ∧
    (extract_booking_code_from_email msgW "" "booking reference 9876543"
      (some htmlW) none [] true).2.booking_code_source = some "email_table" := by
  have ha : (stage1Scan true (some htmlW)).1 = some "1234567" := by decide
  have hb : fallbackScan (combinedFallbackText msgW "" "booking reference 9876543"
      (some htmlW) [] true) = some ("9876543", "regex_fallback") := by decide
  have h := table_code_dominates msgW "" "booking reference 9876543" (some htmlW)
    none [] true "1234567" "9876543" "regex_fallback" ha hb (by decide)
  exact ⟨ha, hb, h.1, h.2.1⟩

end Invoice
